import Mathlib

/-!
Verification of the MailSuite backend email sync engine.

This file shallowly embeds the JavaScript source of the engine:
  * `services/email-worker/classifier.js`        (EmailClassifier)
  * `services/email-worker/enhanced-processor.js`(EnhancedEmailProcessor)
  * `services/email-worker/imap-client.js`       (ImapClient.fetchNewMessages)
  * the thread builder (ThreadBuilder)           (findOrCreateThread et al.)
  * the bounce detector (BounceDetector)         (parseBounce et al.)

Strings are modelled as `List Char` (JS strings), `null`/`undefined` string
fields as `Option (List Char)`.  JS regular expressions used by the source
are modelled by dedicated decidable matchers that follow the semantics of
the concrete pattern (including `/g`, `/i`, `/s` flags, laziness and the
non-multiline `^` anchor).  Database state is explicit; store failures are
injected through a `Faults` record because the store is an external
collaborator of the engine.  Timestamps are `Nat` (milliseconds), with
`now` passed explicitly.
-/

set_option maxRecDepth 10000
set_option maxHeartbeats 1000000

namespace MailSuite

abbrev Str := List Char

/-- The apostrophe character, used in the marketing pattern `/don't miss/i`. -/
def apos : Char := Char.ofNat 39

/-- JS `\s` / `String.prototype.trim` whitespace code points (ECMA-262
WhiteSpace and LineTerminator). -/
def jsWsN (n : Nat) : Bool :=
  n = 32 || n = 9 || n = 10 || n = 13 || n = 11 || n = 12 ||
  n = 0xa0 || n = 0xfeff || n = 0x1680 ||
  (0x2000 ≤ n && n ≤ 0x200a) ||
  n = 0x2028 || n = 0x2029 || n = 0x202f || n = 0x205f || n = 0x3000

def jsWs (c : Char) : Bool := jsWsN c.toNat

/-- JS line terminators (what `.` does NOT match without the `s` flag). -/
def jsLineTerm (c : Char) : Bool :=
  c.toNat = 10 || c.toNat = 13 || c.toNat = 0x2028 || c.toNat = 0x2029

/-- ASCII model of `String.prototype.toLowerCase` / case-insensitive regex
folding (the source only case-folds ASCII header names and patterns). -/
def jsToLower (c : Char) : Char :=
  if 65 ≤ c.toNat ∧ c.toNat ≤ 90 then Char.ofNat (c.toNat + 32) else c

def lowerStr (l : Str) : Str := l.map jsToLower

/-- Case-insensitive test that `pat` (given lowercase) is a prefix of `l`. -/
def ciPfx (pat : Str) (l : Str) : Bool := lowerStr (l.take pat.length) == pat

/-- Case-insensitive substring containment of a lowercase literal `pat`. -/
def ciContains : Str → Str → Bool
  | _, [] => false
  | pat, c :: rest => ciPfx pat (c :: rest) || ciContains pat rest

/-- Containment for an already-lowercased haystack of a lowercase literal. -/
def containsLit (pat l : Str) : Bool := ciContains pat l

def wsDrop (l : Str) : Str := l.dropWhile jsWs

/-- Remove a trailing whitespace run (the right half of JS `trim`). -/
def trimRight : Str → Str
  | [] => []
  | c :: rest =>
    match trimRight rest with
    | [] => if jsWs c then [] else [c]
    | r => c :: r

/-- JS `String.prototype.trim`. -/
def jsTrim (l : Str) : Str := trimRight (wsDrop l)

/-- Helper for `collapseWs`: `inRun` records that the previous character was
whitespace already replaced by a single space. -/
def collapseWsA (inRun : Bool) : Str → Str
  | [] => []
  | c :: rest =>
    if jsWs c then
      if inRun then collapseWsA true rest
      else ' ' :: collapseWsA true rest
    else c :: collapseWsA false rest

/-- JS `replace(/\s+/g, " ")`: each maximal whitespace run becomes one space. -/
def collapseWs (l : Str) : Str := collapseWsA false l

/-- The literal `[external]` (lowercase). -/
def extPat : Str := '[' :: 'e' :: 'x' :: 't' :: 'e' :: 'r' :: 'n' :: 'a' :: 'l' :: ']' :: []

/-- Helper for `removeExternal`: `skip` counts characters of a matched
occurrence still to be discarded. -/
def removeExternalA (skip : Nat) : Str → Str
  | [] => []
  | c :: rest =>
    match skip with
    | m + 1 => removeExternalA m rest
    | 0 =>
      if ciPfx extPat (c :: rest) then removeExternalA 9 rest
      else c :: removeExternalA 0 rest

/-- JS `replace(/\[external\]/gi, "")`: left-to-right removal of every
(case-insensitive) occurrence, without rescanning replaced text. -/
def removeExternal (l : Str) : Str := removeExternalA 0 l

/-- The leading-prefix match of `/^(re|fwd|fw):\s*/gi` on `normalizeSubject`'s
input: with `^` and no `m` flag the global replace removes at most ONE
leading `re:`/`fwd:`/`fw:` (case-insensitive).  Returns the length of the
matched prefix-word (excluding the `\s*` run), or `none`. -/
def matchReplyPfx (l : Str) : Option Nat :=
  if ciPfx ('r' :: 'e' :: ':' :: []) l then some 3
  else if ciPfx ('f' :: 'w' :: 'd' :: ':' :: []) l then some 4
  else if ciPfx ('f' :: 'w' :: ':' :: []) l then some 3
  else none

/-- JS `subject.replace(/^(re|fwd|fw):\s*/gi, "")`. -/
def stripReply1 (l : Str) : Str :=
  match matchReplyPfx l with
  | some n => wsDrop (l.drop n)
  | none => l

/-- `ThreadBuilder.normalizeSubject` (thread builder source):
`subject.replace(/^(re|fwd|fw):\s*/gi, "").replace(/\[external\]/gi, "")
.replace(/\s+/g, " ").trim().toLowerCase()`, with `!subject → ""`. -/
def normalizeSubjectCore (l : Str) : Str :=
  lowerStr (jsTrim (collapseWs (removeExternal (stripReply1 l))))

def normalizeSubject (subject : Option Str) : Str :=
  match subject with
  | none => []
  | some l => normalizeSubjectCore l

/-- Does the string contain a (case-insensitive) occurrence of `[external]`? -/
def hasExt : Str → Bool
  | [] => false
  | c :: rest => ciPfx extPat (c :: rest) || hasExt rest

/-- Head of the list is absent or not whitespace. -/
def headNotWs (l : Str) : Bool :=
  match l.head? with
  | none => true
  | some d => !jsWs d

/-- Shape of `collapseWs` output: every whitespace char is a single space
that is not followed by further whitespace. -/
def collapsedB : Str → Bool
  | [] => true
  | c :: rest => (!jsWs c || (c = ' ' && headNotWs rest)) && collapsedB rest

section StringLemmas

theorem jsToLower_toNat (c : Char) :
    (jsToLower c).toNat = if 65 ≤ c.toNat ∧ c.toNat ≤ 90 then c.toNat + 32 else c.toNat := by
  unfold jsToLower
  split
  · next h =>
    have hv : Nat.isValidChar (c.toNat + 32) := Or.inl (by omega)
    unfold Char.ofNat
    rw [dif_pos hv]
    rfl
  · rfl

theorem jsWs_range (c : Char) (h : jsWs c = true) :
    c.toNat = 32 ∨ c.toNat = 9 ∨ c.toNat = 10 ∨ c.toNat = 13 ∨ c.toNat = 11 ∨
      c.toNat = 12 ∨ c.toNat = 0xa0 ∨ 0x1680 ≤ c.toNat := by
  unfold jsWs jsWsN at h
  simp only [Bool.or_eq_true, decide_eq_true_eq, Bool.and_eq_true] at h
  omega

theorem jsToLower_idem (c : Char) : jsToLower (jsToLower c) = jsToLower c := by
  by_cases h : 65 ≤ c.toNat ∧ c.toNat ≤ 90
  · have hl : (jsToLower c).toNat = c.toNat + 32 := by rw [jsToLower_toNat, if_pos h]
    show (if _ then _ else _) = _
    rw [if_neg (by omega), ]
  · have hc : jsToLower c = c := by unfold jsToLower; rw [if_neg h]
    rw [hc, hc]

theorem jsToLower_of_ws {c : Char} (h : jsWs c = true) : jsToLower c = c := by
  unfold jsToLower
  rw [if_neg]
  have := jsWs_range c h
  omega

theorem jsWs_jsToLower (c : Char) : jsWs (jsToLower c) = jsWs c := by
  unfold jsWs
  rw [jsToLower_toNat]
  split
  · next h =>
    have h1 : jsWsN (c.toNat + 32) = false := by
      unfold jsWsN
      simp only [Bool.or_eq_false_iff, decide_eq_false_iff_not, Bool.and_eq_false_iff,
        Bool.or_eq_false_eq_eq_false_and_eq_false, decide_eq_false_iff_not]
      omega
    have h2 : jsWsN c.toNat = false := by
      unfold jsWsN
      simp only [Bool.or_eq_false_iff, decide_eq_false_iff_not, Bool.and_eq_false_iff,
        Bool.or_eq_false_eq_eq_false_and_eq_false, decide_eq_false_iff_not]
      omega
    rw [h1, h2]
  · rfl

theorem lowerStr_idem (l : Str) : lowerStr (lowerStr l) = lowerStr l := by
  unfold lowerStr
  rw [List.map_map]
  exact List.map_congr_left fun c _ => jsToLower_idem c

theorem wsDrop_nil : wsDrop [] = [] := rfl

theorem wsDrop_cons_pos {c : Char} (rest : Str) (h : jsWs c = true) :
    wsDrop (c :: rest) = wsDrop rest := by
  unfold wsDrop
  rw [List.dropWhile_cons_of_pos h]

theorem wsDrop_cons_neg {c : Char} (rest : Str) (h : jsWs c = false) :
    wsDrop (c :: rest) = c :: rest := by
  unfold wsDrop
  rw [List.dropWhile_cons_of_neg (by rw [h]; simp)]

theorem wsDrop_lowerStr (l : Str) : wsDrop (lowerStr l) = lowerStr (wsDrop l) := by
  induction l with
  | nil => rfl
  | cons c rest ih =>
    by_cases h : jsWs c = true
    · rw [show lowerStr (c :: rest) = jsToLower c :: lowerStr rest from rfl,
        wsDrop_cons_pos _ (by rw [jsWs_jsToLower]; exact h),
        wsDrop_cons_pos rest h, ih]
    · have h' : jsWs c = false := by revert h; cases jsWs c <;> simp
      rw [show lowerStr (c :: rest) = jsToLower c :: lowerStr rest from rfl,
        wsDrop_cons_neg _ (by rw [jsWs_jsToLower]; exact h'),
        wsDrop_cons_neg rest h']
      rfl

theorem headNotWs_wsDrop (l : Str) : headNotWs (wsDrop l) = true := by
  induction l with
  | nil => rfl
  | cons c rest ih =>
    by_cases h : jsWs c = true
    · rw [wsDrop_cons_pos rest h]; exact ih
    · have h' : jsWs c = false := by revert h; cases jsWs c <;> simp
      rw [wsDrop_cons_neg rest h']
      unfold headNotWs
      simp [h']

theorem wsDrop_of_headNotWs {l : Str} (h : headNotWs l = true) : wsDrop l = l := by
  cases l with
  | nil => rfl
  | cons c rest =>
    unfold headNotWs at h
    simp only [List.head?_cons, Bool.not_eq_true'] at h
    exact wsDrop_cons_neg rest h

theorem wsDrop_ws_append {wsp : Str} (l : Str) (h : ∀ c ∈ wsp, jsWs c = true) :
    wsDrop (wsp ++ l) = wsDrop l := by
  induction wsp with
  | nil => rfl
  | cons c rest ih =>
    rw [List.cons_append, wsDrop_cons_pos _ (h c (by simp))]
    exact ih fun d hd => h d (by simp [hd])

theorem collapseWs_nil : collapseWs [] = [] := rfl

theorem collapseWsA_true_eq (rest : Str) : collapseWsA true rest = collapseWs (wsDrop rest) := by
  induction rest with
  | nil => rfl
  | cons c r ih =>
    by_cases h : jsWs c = true
    · show (if jsWs c = true then collapseWsA true r else c :: collapseWsA false r) = _
      rw [if_pos h, ih, wsDrop_cons_pos r h]
    · have h' : jsWs c = false := by revert h; cases jsWs c <;> simp
      show (if jsWs c = true then collapseWsA true r else c :: collapseWsA false r) = _
      rw [if_neg (by rw [h']; simp), wsDrop_cons_neg r h']
      show _ = (if jsWs c = true then _ else c :: collapseWsA false r)
      rw [if_neg (by rw [h']; simp)]

theorem collapseWs_cons_of_ws {c : Char} (rest : Str) (h : jsWs c = true) :
    collapseWs (c :: rest) = ' ' :: collapseWs (wsDrop rest) := by
  show (if jsWs c = true then ' ' :: collapseWsA true rest else c :: collapseWsA false rest) = _
  rw [if_pos h, collapseWsA_true_eq]

theorem collapseWs_cons_of_not_ws {c : Char} (rest : Str) (h : jsWs c = false) :
    collapseWs (c :: rest) = c :: collapseWs rest := by
  show (if jsWs c = true then ' ' :: collapseWsA true rest else c :: collapseWsA false rest) = _
  rw [if_neg (by rw [h]; simp)]
  rfl

theorem headNotWs_collapseWs {l : Str} (h : headNotWs l = true) :
    headNotWs (collapseWs l) = true := by
  cases l with
  | nil => rw [collapseWs_nil]; exact h
  | cons c rest =>
    unfold headNotWs at h
    simp only [List.head?_cons, Bool.not_eq_true'] at h
    rw [collapseWs_cons_of_not_ws rest h]
    unfold headNotWs
    simp [h]

theorem ws_space : jsWs ' ' = true := by unfold jsWs jsWsN; simp

theorem wsDrop_collapseWs (l : Str) : wsDrop (collapseWs l) = collapseWs (wsDrop l) := by
  cases l with
  | nil => rw [collapseWs_nil, wsDrop_nil, collapseWs_nil]
  | cons c rest =>
    by_cases h : jsWs c = true
    · rw [collapseWs_cons_of_ws rest h, wsDrop_cons_pos _ ws_space,
        wsDrop_of_headNotWs (headNotWs_collapseWs (headNotWs_wsDrop rest)),
        wsDrop_cons_pos rest h]
    · have h' : jsWs c = false := by revert h; cases jsWs c <;> simp
      rw [collapseWs_cons_of_not_ws rest h', wsDrop_cons_neg _ h',
        wsDrop_cons_neg rest h', collapseWs_cons_of_not_ws rest h']

theorem collapseWs_lowerStr (l : Str) : collapseWs (lowerStr l) = lowerStr (collapseWs l) := by
  suffices H : ∀ n l2, List.length l2 = n → collapseWs (lowerStr l2) = lowerStr (collapseWs l2) by
    exact H l.length l rfl
  intro n
  induction n using Nat.strong_induction_on with
  | _ n ih =>
    intro l2 hn
    cases l2 with
    | nil => rw [show lowerStr [] = [] from rfl, collapseWs_nil]; rfl
    | cons c rest =>
      by_cases h : jsWs c = true
      · rw [show lowerStr (c :: rest) = jsToLower c :: lowerStr rest from rfl,
          collapseWs_cons_of_ws _ (by rw [jsWs_jsToLower]; exact h),
          collapseWs_cons_of_ws rest h,
          wsDrop_lowerStr rest]
        have hlen : (wsDrop rest).length < n := by
          subst hn
          simp only [List.length_cons]
          exact Nat.lt_succ_of_le (List.Sublist.length_le (List.dropWhile_sublist jsWs))
        rw [ih _ hlen _ rfl]
        rfl
      · have h' : jsWs c = false := by revert h; cases jsWs c <;> simp
        rw [show lowerStr (c :: rest) = jsToLower c :: lowerStr rest from rfl,
          collapseWs_cons_of_not_ws _ (by rw [jsWs_jsToLower]; exact h'),
          collapseWs_cons_of_not_ws rest h']
        have hlen : rest.length < n := by subst hn; simp
        rw [ih _ hlen _ rfl]
        rfl

theorem collapsedB_cons (c : Char) (rest : Str) :
    collapsedB (c :: rest) = ((!jsWs c || (c = ' ' && headNotWs rest)) && collapsedB rest) := rfl

theorem collapsedB_tail {c : Char} {rest : Str} (h : collapsedB (c :: rest) = true) :
    collapsedB rest = true := by
  rw [collapsedB_cons, Bool.and_eq_true] at h
  exact h.2

theorem collapsedB_collapseWs (l : Str) : collapsedB (collapseWs l) = true := by
  suffices H : ∀ n l2, List.length l2 = n → collapsedB (collapseWs l2) = true by
    exact H l.length l rfl
  intro n
  induction n using Nat.strong_induction_on with
  | _ n ih =>
    intro l2 hn
    cases l2 with
    | nil => rw [collapseWs_nil]; rfl
    | cons c rest =>
      by_cases h : jsWs c = true
      · rw [collapseWs_cons_of_ws rest h, collapsedB_cons]
        have h1 : headNotWs (collapseWs (wsDrop rest)) = true :=
          headNotWs_collapseWs (headNotWs_wsDrop rest)
        have hlen : (wsDrop rest).length < n := by
          subst hn
          simp only [List.length_cons]
          exact Nat.lt_succ_of_le (List.Sublist.length_le (List.dropWhile_sublist jsWs))
        rw [ih _ hlen _ rfl, h1]
        simp
      · have h' : jsWs c = false := by revert h; cases jsWs c <;> simp
        rw [collapseWs_cons_of_not_ws rest h', collapsedB_cons]
        have hlen : rest.length < n := by subst hn; simp
        rw [ih _ hlen _ rfl, h']
        simp

theorem collapseWs_of_collapsedB {l : Str} (h : collapsedB l = true) : collapseWs l = l := by
  induction l with
  | nil => exact collapseWs_nil
  | cons c rest ih =>
    have ht := collapsedB_tail h
    rw [collapsedB_cons, Bool.and_eq_true, Bool.or_eq_true, Bool.and_eq_true] at h
    by_cases hw : jsWs c = true
    · rcases h.1 with h1 | ⟨h1, h2⟩
      · rw [hw] at h1; simp at h1
      · rw [collapseWs_cons_of_ws rest hw, wsDrop_of_headNotWs h2, ih ht]
        have : c = ' ' := by simpa using h1
        rw [this]
    · have h' : jsWs c = false := by revert hw; cases jsWs c <;> simp
      rw [collapseWs_cons_of_not_ws rest h', ih ht]

theorem collapsedB_wsDrop {l : Str} (h : collapsedB l = true) : collapsedB (wsDrop l) = true := by
  induction l with
  | nil => exact h
  | cons c rest ih =>
    by_cases hw : jsWs c = true
    · rw [wsDrop_cons_pos rest hw]
      exact ih (collapsedB_tail h)
    · have h' : jsWs c = false := by revert hw; cases jsWs c <;> simp
      rw [wsDrop_cons_neg rest h']
      exact h

theorem trimRight_cons_cases (c : Char) (rest : Str) :
    trimRight (c :: rest) = [] ∨ ∃ r, trimRight (c :: rest) = c :: r := by
  show (match trimRight rest with
        | [] => if jsWs c then [] else [c]
        | r => c :: r) = [] ∨ ∃ r, (match trimRight rest with
        | [] => if jsWs c then [] else [c]
        | r => c :: r) = c :: r
  cases htr : trimRight rest with
  | nil =>
    by_cases hw : jsWs c = true
    · left; simp [hw]
    · right
      have h' : jsWs c = false := by revert hw; cases jsWs c <;> simp
      exact ⟨[], by simp [h']⟩
  | cons d r' => right; exact ⟨d :: r', rfl⟩

theorem collapsedB_trimRight {l : Str} (h : collapsedB l = true) :
    collapsedB (trimRight l) = true := by
  induction l with
  | nil => exact h
  | cons c rest ih =>
    have ht := collapsedB_tail h
    show collapsedB (match trimRight rest with
        | [] => if jsWs c then [] else [c]
        | r => c :: r) = true
    cases htr : trimRight rest with
    | nil =>
      by_cases hw : jsWs c = true
      · simp only [hw, if_true]
        rfl
      · have h' : jsWs c = false := by revert hw; cases jsWs c <;> simp
        simp only [h', Bool.false_eq_true, if_false]
        rw [collapsedB_cons]
        simp only [h', headNotWs, Bool.not_false, Bool.true_or, Bool.true_and]
        rfl
    | cons d r' =>
      rw [collapsedB_cons]
      have hrec : collapsedB (d :: r') = true := by rw [← htr]; exact ih ht
      rw [hrec]
      rw [collapsedB_cons, Bool.and_eq_true, Bool.or_eq_true, Bool.and_eq_true] at h
      rcases h.1 with h1 | ⟨h1, h2⟩
      · rw [Bool.not_eq_true'] at h1
        simp [h1]
      · cases rest with
        | nil => exact List.noConfusion (show ([] : Str) = d :: r' from htr)
        | cons e rest' =>
          have hd : d = e := by
            rcases trimRight_cons_cases e rest' with hc | ⟨r'', hc⟩
            · rw [hc] at htr; simp at htr
            · rw [hc] at htr
              exact (List.cons.injEq _ _ _ _ ▸ htr).1.symm
          have he : headNotWs (e :: rest') = true := h2
          unfold headNotWs at he
          simp only [List.head?_cons] at he
          have hh : headNotWs (d :: r') = true := by
            unfold headNotWs
            simp only [List.head?_cons]
            rw [hd]
            exact he
          rw [hh]
          simp only [Bool.and_true, Bool.or_eq_true, Bool.not_eq_true', decide_eq_true_eq]
          right
          exact of_decide_eq_true h1

theorem trimRight_lowerStr (l : Str) : trimRight (lowerStr l) = lowerStr (trimRight l) := by
  induction l with
  | nil => rfl
  | cons c rest ih =>
    show (match trimRight (lowerStr rest) with
        | [] => if jsWs (jsToLower c) then [] else [jsToLower c]
        | r => jsToLower c :: r) = lowerStr (match trimRight rest with
        | [] => if jsWs c then [] else [c]
        | r => c :: r)
    rw [ih]
    cases htr : trimRight rest with
    | nil =>
      rw [jsWs_jsToLower]
      by_cases hw : jsWs c = true
      · simp only [hw, if_true]
        rfl
      · have h' : jsWs c = false := by revert hw; cases jsWs c <;> simp
        simp only [h', Bool.false_eq_true, if_false]
        rfl
    | cons d r' => rfl

theorem jsTrim_lowerStr (l : Str) : jsTrim (lowerStr l) = lowerStr (jsTrim l) := by
  unfold jsTrim
  rw [wsDrop_lowerStr, trimRight_lowerStr]

theorem trimRight_idem (l : Str) : trimRight (trimRight l) = trimRight l := by
  induction l with
  | nil => rfl
  | cons c rest ih =>
    show trimRight (match trimRight rest with
        | [] => if jsWs c then [] else [c]
        | r => c :: r) = (match trimRight rest with
        | [] => if jsWs c then [] else [c]
        | r => c :: r)
    cases htr : trimRight rest with
    | nil =>
      by_cases hw : jsWs c = true
      · simp [hw]; rfl
      · have h' : jsWs c = false := by revert hw; cases jsWs c <;> simp
        simp only [h']
        rw [if_neg (by simp)]
        show (match trimRight [] with
            | [] => if jsWs c then [] else [c]
            | r => c :: r) = [c]
        simp only [trimRight, h']
        rw [if_neg (by simp)]
    | cons d r' =>
      have hr : trimRight (d :: r') = d :: r' := by rw [← htr]; exact ih
      show (match trimRight (d :: r') with
          | [] => if jsWs c then [] else [c]
          | r => c :: r) = c :: d :: r'
      rw [hr]

theorem headNotWs_trimRight {l : Str} (h : headNotWs l = true) :
    headNotWs (trimRight l) = true := by
  cases l with
  | nil => exact h
  | cons c rest =>
    rcases trimRight_cons_cases c rest with hc | ⟨r, hc⟩
    · rw [hc]; rfl
    · rw [hc]
      unfold headNotWs at h ⊢
      simpa using h

theorem jsTrim_idem (l : Str) : jsTrim (jsTrim l) = jsTrim l := by
  unfold jsTrim
  rw [wsDrop_of_headNotWs (headNotWs_trimRight (headNotWs_wsDrop l)), trimRight_idem]

theorem removeExternal_nil : removeExternal [] = [] := rfl

theorem removeExternalA_drop (r : Str) : ∀ m, removeExternalA m r = removeExternalA 0 (r.drop m) := by
  induction r with
  | nil => intro m; cases m <;> rfl
  | cons c rest ih =>
    intro m
    cases m with
    | zero => rfl
    | succ k =>
      show removeExternalA k rest = _
      rw [ih k]
      rfl

theorem removeExternal_cons_pos {c : Char} (rest : Str) (h : ciPfx extPat (c :: rest) = true) :
    removeExternal (c :: rest) = removeExternal (rest.drop 9) := by
  show (if ciPfx extPat (c :: rest) = true then removeExternalA 9 rest
        else c :: removeExternalA 0 rest) = _
  rw [if_pos h, removeExternalA_drop rest 9]
  rfl

theorem removeExternal_cons_neg {c : Char} (rest : Str) (h : ciPfx extPat (c :: rest) = false) :
    removeExternal (c :: rest) = c :: removeExternal rest := by
  show (if ciPfx extPat (c :: rest) = true then removeExternalA 9 rest
        else c :: removeExternalA 0 rest) = _
  rw [if_neg (by rw [h]; simp)]
  rfl

theorem removeExternal_of_not_hasExt {l : Str} (h : hasExt l = false) :
    removeExternal l = l := by
  induction l with
  | nil => exact removeExternal_nil
  | cons c rest ih =>
    unfold hasExt at h
    rw [Bool.or_eq_false_iff] at h
    rw [removeExternal_cons_neg rest h.1, ih h.2]

theorem ciPfx_extPat_head {c : Char} {l : Str} (h : ciPfx extPat (c :: l) = true) :
    jsToLower c = '[' := by
  unfold ciPfx at h
  rw [beq_iff_eq] at h
  have : lowerStr ((c :: l).take extPat.length) = jsToLower c :: lowerStr (l.take (extPat.length - 1)) := by
    rfl
  rw [this] at h
  exact (List.cons.injEq _ _ _ _ ▸ h).1

theorem removeExternal_ws_append {wsp : Str} (l : Str) (h : ∀ c ∈ wsp, jsWs c = true) :
    removeExternal (wsp ++ l) = wsp ++ removeExternal l := by
  induction wsp with
  | nil => rfl
  | cons c rest ih =>
    rw [List.cons_append]
    have hws : jsWs c = true := h c (by simp)
    have hno : ciPfx extPat (c :: (rest ++ l)) = false := by
      cases hc : ciPfx extPat (c :: (rest ++ l)) with
      | false => rfl
      | true =>
        have := ciPfx_extPat_head hc
        rw [jsToLower_of_ws hws] at this
        subst this
        rw [show jsWs '[' = false from rfl] at hws
        simp at hws
    rw [removeExternal_cons_neg _ hno, ih fun d hd => h d (by simp [hd]), List.cons_append]

theorem norm_pipeline_idem (u : Str) :
    lowerStr (jsTrim (collapseWs (lowerStr (jsTrim (collapseWs u)))))
      = lowerStr (jsTrim (collapseWs u)) := by
  have hcoll : collapsedB (jsTrim (collapseWs u)) = true := by
    unfold jsTrim
    exact collapsedB_trimRight (collapsedB_wsDrop (collapsedB_collapseWs u))
  rw [collapseWs_lowerStr, collapseWs_of_collapsedB hcoll, jsTrim_lowerStr, jsTrim_idem,
    lowerStr_idem]

theorem norm_pipeline_wsDrop (s : Str) :
    lowerStr (jsTrim (collapseWs (removeExternal (wsDrop s))))
      = lowerStr (jsTrim (collapseWs (removeExternal s))) := by
  have hsplit : s = s.takeWhile jsWs ++ wsDrop s := (List.takeWhile_append_dropWhile jsWs s).symm
  have hws : ∀ c ∈ s.takeWhile jsWs, jsWs c = true := fun c hc => List.mem_takeWhile_imp hc
  conv_rhs => rw [hsplit]
  rw [removeExternal_ws_append (wsDrop s) hws]
  unfold jsTrim
  rw [wsDrop_collapseWs, wsDrop_collapseWs, wsDrop_ws_append _ hws]

end StringLemmas

section SubjectClaims

/-- C4 is refuted on the code: `normalizeSubject` strips only ONE leading
reply prefix per call (the `/^.../g` regex cannot rematch its `^` anchor),
so a doubly-prefixed subject loses one more prefix on the second
application.  `"Fwd: fwd: hi"` normalizes to `"fwd: hi"`, and normalizing
again gives `"hi"`. -/
theorem claim_C4_counterexample :
    normalizeSubject (some (normalizeSubject (some (String.toList "Fwd: fwd: hi")))) ≠
      normalizeSubject (some (String.toList "Fwd: fwd: hi")) := by decide

/-- C4 (amended): `normalize_subject` is idempotent on every subject whose
normalized form neither starts with a further `re:`/`fwd:`/`fw:` reply
prefix nor still contains an `[external]` occurrence (both can survive one
pass only when the original subject stacks such markers). -/
theorem claim_C4 (s : Str)
    (h1 : matchReplyPfx (normalizeSubject (some s)) = none)
    (h2 : hasExt (normalizeSubject (some s)) = false) :
    normalizeSubject (some (normalizeSubject (some s))) = normalizeSubject (some s) := by
  show normalizeSubjectCore (normalizeSubjectCore s) = normalizeSubjectCore s
  have hstrip : stripReply1 (normalizeSubjectCore s) = normalizeSubjectCore s := by
    unfold stripReply1
    rw [show matchReplyPfx (normalizeSubjectCore s) = none from h1]
  have hre : removeExternal (normalizeSubjectCore s) = normalizeSubjectCore s :=
    removeExternal_of_not_hasExt h2
  show lowerStr (jsTrim (collapseWs (removeExternal (stripReply1 (normalizeSubjectCore s)))))
      = normalizeSubjectCore s
  rw [hstrip, hre]
  exact norm_pipeline_idem (removeExternal (stripReply1 s))

/-- C4 witness: the amended statement holds at `"Re: hello world"`. -/
theorem claim_C4_witness :
    matchReplyPfx (normalizeSubject (some (String.toList "Re: hello world"))) = none ∧
    hasExt (normalizeSubject (some (String.toList "Re: hello world"))) = false ∧
    normalizeSubject (some (normalizeSubject (some (String.toList "Re: hello world")))) =
      normalizeSubject (some (String.toList "Re: hello world")) :=
  ⟨by decide, by decide, claim_C4 (String.toList "Re: hello world") (by decide) (by decide)⟩

/-- C5 is refuted on the code: prefix stripping is NOT applied repeatedly.
For `s = "Fwd: hi"`, `normalizeSubject ("Re: " + s) = "fwd: hi"` while
`normalizeSubject s = "hi"`. -/
theorem claim_C5_counterexample :
    normalizeSubject (some (String.toList "Re: " ++ String.toList "Fwd: hi")) ≠
      normalizeSubject (some (String.toList "Fwd: hi")) := by decide

/-- C5 (amended): for every subject `s` that does not itself start with a
`re:`/`fwd:`/`fw:` prefix, `normalize_subject ("Re: " + s)
= normalize_subject s = normalize_subject ("Fwd: " + s)`.  When prefixes
are stacked, only the FIRST leading prefix is stripped per call, so the
repeated-prefix part of the claim fails. -/
theorem claim_C5 (s : Str) (h : matchReplyPfx s = none) :
    normalizeSubject (some (String.toList "Re: " ++ s)) = normalizeSubject (some s) ∧
    normalizeSubject (some (String.toList "Fwd: " ++ s)) = normalizeSubject (some s) := by
  have hstrip : stripReply1 s = s := by unfold stripReply1; rw [h]
  constructor
  · show normalizeSubjectCore (String.toList "Re: " ++ s) = normalizeSubjectCore s
    have h1 : stripReply1 (String.toList "Re: " ++ s) = wsDrop s := by
      unfold stripReply1 matchReplyPfx
      rw [if_pos (by rfl)]
      rfl
    show lowerStr (jsTrim (collapseWs (removeExternal
        (stripReply1 (String.toList "Re: " ++ s))))) = _
    rw [h1]
    show _ = lowerStr (jsTrim (collapseWs (removeExternal (stripReply1 s))))
    rw [hstrip]
    exact norm_pipeline_wsDrop s
  · show normalizeSubjectCore (String.toList "Fwd: " ++ s) = normalizeSubjectCore s
    have h1 : stripReply1 (String.toList "Fwd: " ++ s) = wsDrop s := by
      have hre : ciPfx ('r' :: 'e' :: ':' :: []) (String.toList "Fwd: " ++ s) = false := rfl
      unfold stripReply1 matchReplyPfx
      rw [if_neg (by rw [hre]; simp), if_pos (by rfl)]
      rfl
    show lowerStr (jsTrim (collapseWs (removeExternal
        (stripReply1 (String.toList "Fwd: " ++ s))))) = _
    rw [h1]
    show _ = lowerStr (jsTrim (collapseWs (removeExternal (stripReply1 s))))
    rw [hstrip]
    exact norm_pipeline_wsDrop s

/-- C5 witness: the amended statement holds at `"hello world"`. -/
theorem claim_C5_witness :
    matchReplyPfx (String.toList "hello world") = none ∧
    (normalizeSubject (some (String.toList "Re: " ++ String.toList "hello world")) =
        normalizeSubject (some (String.toList "hello world")) ∧
      normalizeSubject (some (String.toList "Fwd: " ++ String.toList "hello world")) =
        normalizeSubject (some (String.toList "hello world"))) :=
  ⟨by decide, claim_C5 (String.toList "hello world") (by decide)⟩

end SubjectClaims

/-! ## Classifier (`classifier.js`) -/

/-- Plain JS `String.prototype.includes` (case-sensitive). -/
def listContains (pat : Str) : Str → Bool
  | [] => decide (pat = [])
  | c :: rest => pat.isPrefixOf (c :: rest) || listContains pat rest

/-- JS digit class `\d`. -/
def isDig (c : Char) : Bool := 48 ≤ c.toNat && c.toNat ≤ 57

/-- Test for regexes of the shape `/LIT\d+/i`: some occurrence of the
literal followed directly by a digit. -/
def cThenDigit (pat : Str) : Str → Bool
  | [] => false
  | c :: rest =>
    (ciPfx pat (c :: rest) &&
      (match (c :: rest).drop pat.length with
       | d :: _ => isDig d
       | [] => false)) ||
    cThenDigit pat rest

/-- Test for regexes of the shape `/\d+LIT/i`: some digit followed directly
by the literal (with backtracking, a match exists iff the last digit of a
run is followed by the literal). -/
def digitThen (pat : Str) : Str → Bool
  | [] => false
  | c :: rest => (isDig c && ciPfx pat rest) || digitThen pat rest

/-- `/STEMs?@/i`: the stem, an optional `s`, then `@`. -/
def optS (stem : Str) (l : Str) : Bool :=
  ciContains (stem ++ ('@' :: [])) l || ciContains (stem ++ ('s' :: '@' :: [])) l

/-- `/you have (?:\d+|a) new/i`. -/
def youHaveNew : Str → Bool
  | [] => false
  | c :: rest =>
    (ciPfx (String.toList "you have ") (c :: rest) &&
      (let r := (c :: rest).drop 9
       (ciPfx (String.toList "a new") r) ||
       (!(r.takeWhile isDig).isEmpty && ciPfx (String.toList " new") (r.dropWhile isDig)))) ||
    youHaveNew rest

/-- After `someone`, `.*` (which cannot cross a line terminator) then one of
the given words: scan forward until a line terminator, testing each
position for a word. -/
def scanWords (ws : List Str) : Str → Bool
  | [] => false
  | c :: rest => ws.any (fun w => ciPfx w (c :: rest)) || (!jsLineTerm c && scanWords ws rest)

/-- `/someone.*(?:liked|commented|shared)/i`. -/
def someoneThen : Str → Bool
  | [] => false
  | c :: rest =>
    (ciPfx (String.toList "someone") (c :: rest) &&
      scanWords [String.toList "liked", String.toList "commented", String.toList "shared"]
        ((c :: rest).drop 7)) ||
    someoneThen rest

/-- Count of `/https?:\/\//g` matches (non-overlapping, left to right);
`skip` discards the remaining characters of a previous match. -/
def countLinksA (skip : Nat) : Str → Nat
  | [] => 0
  | c :: rest =>
    match skip with
    | m + 1 => countLinksA m rest
    | 0 =>
      if ciPfx (String.toList "http://") (c :: rest) then 1 + countLinksA 6 rest
      else if ciPfx (String.toList "https://") (c :: rest) then 1 + countLinksA 7 rest
      else countLinksA 0 rest

def countLinks (l : Str) : Nat := countLinksA 0 l

/-- A JS value that may be `undefined`, a string, or an array of strings
(the shape of `email.to` coming from the IMAP layer). -/
inductive JsVal where
  | undef : JsVal
  | str : Str → JsVal
  | arr : List Str → JsVal
deriving DecidableEq

/-- The message object consumed by `EmailClassifier.classify`. -/
structure CMsg where
  from_ : Option Str
  subject : Option Str
  body : Option Str
  toF : JsVal
  headers : List (Str × Str)
deriving DecidableEq

/-- JS object property lookup `headers[k]`. -/
def hGet (hs : List (Str × Str)) (k : Str) : Option Str :=
  (hs.find? (fun p => p.1 == k)).map (fun p => p.2)

/-- JS truthiness of a possibly-undefined string. -/
def truthy (o : Option Str) : Bool :=
  match o with
  | none => false
  | some s => !s.isEmpty

def hTruthy (hs : List (Str × Str)) (k : Str) : Bool := truthy (hGet hs k)

inductive Category where
  | BOUNCE | TRANSACTIONAL | NOTIFICATION | NEWSLETTER | MARKETING | HUMAN | UNKNOWN
deriving DecidableEq

structure Classification where
  category : Category
  confidence : ℚ
deriving DecidableEq

/-- `transactionalPatterns.from` of `classifier.js`. -/
def transactionalFrom (from_ : Str) : Bool :=
  ciContains (String.toList "noreply@") from_ ||
  ciContains (String.toList "no-reply@") from_ ||
  optS (String.toList "notification") from_ ||
  ciContains (String.toList "notify@") from_ ||
  ciContains (String.toList "support@") from_ ||
  ciContains (String.toList "security@") from_ ||
  ciContains (String.toList "billing@") from_ ||
  optS (String.toList "invoice") from_ ||
  optS (String.toList "receipt") from_ ||
  optS (String.toList "order") from_ ||
  optS (String.toList "account") from_ ||
  ciContains (String.toList "team@") from_

/-- `transactionalPatterns.subject` of `classifier.js`. -/
def transactionalSubject (subject : Str) : Bool :=
  ciContains (String.toList "password reset") subject ||
  ciContains (String.toList "reset your password") subject ||
  ciContains (String.toList "verify your email") subject ||
  ciContains (String.toList "confirm your email") subject ||
  ciContains (String.toList "email verification") subject ||
  ciContains (String.toList "order confirmation") subject ||
  cThenDigit (String.toList "order #") subject ||
  ciContains (String.toList "receipt") subject ||
  ciContains (String.toList "invoice") subject ||
  ciContains (String.toList "payment received") subject ||
  ciContains (String.toList "subscription") subject ||
  ciContains (String.toList "welcome to") subject ||
  ciContains (String.toList "account created") subject ||
  ciContains (String.toList "security alert") subject ||
  ciContains (String.toList "suspicious activity") subject

/-- `notificationPatterns.from` of `classifier.js`. -/
def notificationFrom (from_ : Str) : Bool :=
  optS (String.toList "notification") from_ ||
  optS (String.toList "alert") from_ ||
  optS (String.toList "update") from_ ||
  ciContains (String.toList "activity@") from_ ||
  ciContains (String.toList "digest@") from_

/-- `notificationPatterns.subject` of `classifier.js`. -/
def notificationSubject (subject : Str) : Bool :=
  ciContains (String.toList "activity on") subject ||
  youHaveNew subject ||
  ciContains (String.toList "new comment") subject ||
  ciContains (String.toList "new reply") subject ||
  ciContains (String.toList "new message") subject ||
  ciContains (String.toList "new mention") subject ||
  ciContains (String.toList "reminder:") subject ||
  ciContains (String.toList "upcoming") subject ||
  ciContains (String.toList "daily summary") subject ||
  ciContains (String.toList "daily digest") subject ||
  ciContains (String.toList "daily report") subject ||
  ciContains (String.toList "weekly summary") subject ||
  ciContains (String.toList "weekly digest") subject ||
  ciContains (String.toList "weekly report") subject ||
  ciContains (String.toList "monthly summary") subject ||
  ciContains (String.toList "monthly digest") subject ||
  ciContains (String.toList "monthly report") subject ||
  someoneThen subject ||
  digitThen (String.toList " new notification") subject

/-- `marketingPatterns.subject` of `classifier.js`. -/
def marketingSubject (subject : Str) : Bool :=
  ciContains (String.toList "sale") subject ||
  digitThen (String.toList "% off") subject ||
  ciContains (String.toList "discount") subject ||
  ciContains (String.toList "limited time") subject ||
  ciContains (String.toList "exclusive offer") subject ||
  ciContains (String.toList "deal of the day") subject ||
  ciContains (String.toList "free shipping") subject ||
  ciContains (String.toList "buy now") subject ||
  ciContains (String.toList "shop now") subject ||
  ciContains (String.toList "don" ++ apos :: String.toList "t miss") subject ||
  ciContains (String.toList "last chance") subject ||
  ciContains (String.toList "special offer") subject ||
  ciContains (String.toList "promotion") subject

/-- `newsletterPatterns.subject` of `classifier.js`. -/
def newsletterSubject (subject : Str) : Bool :=
  ciContains (String.toList "newsletter") subject ||
  ciContains (String.toList "weekly roundup") subject ||
  ciContains (String.toList "this week in") subject ||
  cThenDigit (String.toList "edition ") subject ||
  cThenDigit (String.toList "edition #") subject ||
  cThenDigit (String.toList "volume ") subject

/-- `EmailClassifier.isBounce`. -/
def isBounceC (email : CMsg) : Bool :=
  let from_ := lowerStr (email.from_.getD [])
  let subject := lowerStr (email.subject.getD [])
  listContains (String.toList "mailer-daemon") from_ ||
  listContains (String.toList "postmaster") from_ ||
  listContains (String.toList "mail-daemon") from_ ||
  listContains (String.toList "undelivered") subject ||
  listContains (String.toList "failure notice") subject ||
  listContains (String.toList "returned mail") subject ||
  listContains (String.toList "delivery status notification") subject ||
  listContains (String.toList "mail delivery failed") subject ||
  listContains (String.toList "undeliverable") subject ||
  listContains (String.toList "bounce") subject ||
  listContains (String.toList "permanent error") subject ||
  listContains (String.toList "delivery failure") subject

/-- The `List-Unsubscribe` truthiness test shared by several rules. -/
def hasListUnsub (email : CMsg) : Bool :=
  hTruthy email.headers (String.toList "list-unsubscribe") ||
  hTruthy email.headers (String.toList "List-Unsubscribe")

/-- `EmailClassifier.isTransactional`. -/
def isTransactional (email : CMsg) : Bool :=
  let from_ := lowerStr (email.from_.getD [])
  let subject := lowerStr (email.subject.getD [])
  (transactionalFrom from_ || transactionalSubject subject) && !hasListUnsub email

/-- `EmailClassifier.isNotification`. -/
def isNotification (email : CMsg) : Bool :=
  let from_ := lowerStr (email.from_.getD [])
  let subject := lowerStr (email.subject.getD [])
  notificationFrom from_ || notificationSubject subject

/-- `EmailClassifier.isMarketing`. -/
def isMarketing (email : CMsg) : Bool :=
  let subject := lowerStr (email.subject.getD [])
  let body := lowerStr (email.body.getD [])
  hasListUnsub email || (marketingSubject subject && decide (countLinks body > 5))

/-- `EmailClassifier.isNewsletter`. -/
def isNewsletter (email : CMsg) : Bool :=
  let subject := lowerStr (email.subject.getD [])
  let hasListPost := hTruthy email.headers (String.toList "list-post") ||
    hTruthy email.headers (String.toList "List-Post")
  (hasListUnsub email && hasListPost) || newsletterSubject subject

def automatedSenders : List Str :=
  [String.toList "noreply", String.toList "no-reply", String.toList "notifications",
   String.toList "alert", String.toList "updates", String.toList "newsletter",
   String.toList "marketing", String.toList "info", String.toList "support"]

/-- `EmailClassifier.isHuman`. -/
def isHuman (email : CMsg) : Bool :=
  let from_ := lowerStr (email.from_.getD [])
  let toArr : List Str :=
    match email.toF with
    | .arr l => l
    | .str s => [s]
    | .undef => []
  let isAutomated := automatedSenders.any (fun s => listContains s from_)
  let replyTo : Str :=
    if hTruthy email.headers (String.toList "reply-to") then
      (hGet email.headers (String.toList "reply-to")).getD []
    else if hTruthy email.headers (String.toList "Reply-To") then
      (hGet email.headers (String.toList "Reply-To")).getD []
    else []
  let hasPersonalReplyTo :=
    !replyTo.isEmpty && !(automatedSenders.any (fun s => listContains s replyTo))
  let isSingleRecipient := toArr.length == 1
  let hasListHeaders :=
    hTruthy email.headers (String.toList "list-unsubscribe") ||
    hTruthy email.headers (String.toList "List-Unsubscribe") ||
    hTruthy email.headers (String.toList "list-id") ||
    hTruthy email.headers (String.toList "List-Id")
  !isAutomated && (hasPersonalReplyTo || isSingleRecipient) && !hasListHeaders

/-- `EmailClassifier.classify`: first matching rule wins, with the fixed
confidences of the source. -/
def classify (email : CMsg) : Classification :=
  if isBounceC email then ⟨.BOUNCE, 1⟩
  else if isTransactional email then ⟨.TRANSACTIONAL, 0.9⟩
  else if isNotification email then ⟨.NOTIFICATION, 0.85⟩
  else if isNewsletter email then ⟨.NEWSLETTER, 0.75⟩
  else if isMarketing email then ⟨.MARKETING, 0.8⟩
  else if isHuman email then ⟨.HUMAN, 0.7⟩
  else ⟨.UNKNOWN, 0⟩

section ClassifierClaims

/-- The S6 message of the spec: transactional-looking sender, marketing
subject, `List-Unsubscribe` present, no `List-Post`. -/
def c3msgS6 : CMsg :=
  { from_ := some (String.toList "noreply@store.example"),
    subject := some (String.toList "50% off - Limited time"),
    body := some [],
    toF := .arr [String.toList "me@example.org"],
    headers := [(String.toList "list-unsubscribe", String.toList "<mailto:unsub@store.example>")] }

/-- Like S6 but the subject also matches a NOTIFICATION pattern
(`upcoming`), which `classify` checks before MARKETING. -/
def c3msgCex : CMsg :=
  { from_ := some (String.toList "noreply@store.example"),
    subject := some (String.toList "Upcoming Sale: 50% off - Limited time"),
    body := some [],
    toF := .arr [String.toList "me@example.org"],
    headers := [(String.toList "list-unsubscribe", String.toList "<mailto:unsub@store.example>")] }

/-- C3 is refuted as a universal statement: `c3msgCex` satisfies every
hypothesis of the claim (transactional sender pattern, marketing subject
pattern, `List-Unsubscribe` and no `List-Post`), yet its subject also
contains `upcoming`, a NOTIFICATION pattern that `classify` tries before
MARKETING, so the result is NOTIFICATION (0.85), not MARKETING (0.80). -/
theorem claim_C3_counterexample :
    transactionalFrom (lowerStr (c3msgCex.from_.getD [])) = true ∧
    marketingSubject (lowerStr (c3msgCex.subject.getD [])) = true ∧
    hasListUnsub c3msgCex = true ∧
    hTruthy c3msgCex.headers (String.toList "list-post") = false ∧
    hTruthy c3msgCex.headers (String.toList "List-Post") = false ∧
    classify c3msgCex ≠ ⟨.MARKETING, 0.8⟩ := by
  refine ⟨by decide, by decide, by decide, by decide, by decide, ?_⟩
  intro h
  have hrfl : classify c3msgCex = ⟨.NOTIFICATION, 0.85⟩ := rfl
  rw [hrfl] at h
  exact absurd (congrArg Classification.category h) (by decide)

/-- C3 (amended): a message whose from matches a transactional sender
pattern, whose subject matches a marketing subject pattern, whose headers
contain a truthy `List-Unsubscribe` but no `List-Post`, AND which matches
no bounce indicator, no notification pattern and no newsletter subject
pattern (the classifier tries those rules first), classifies as MARKETING
with confidence 0.80 — not TRANSACTIONAL (List-Unsubscribe disqualifies
it) and not NEWSLETTER (no List-Post). -/
theorem claim_C3 (email : CMsg)
    (hf : transactionalFrom (lowerStr (email.from_.getD [])) = true)
    (hm : marketingSubject (lowerStr (email.subject.getD [])) = true)
    (hlu : hasListUnsub email = true)
    (hlp : hTruthy email.headers (String.toList "list-post") = false)
    (hlp2 : hTruthy email.headers (String.toList "List-Post") = false)
    (hb : isBounceC email = false)
    (hn : isNotification email = false)
    (hns : newsletterSubject (lowerStr (email.subject.getD [])) = false) :
    classify email = ⟨.MARKETING, 0.8⟩ := by
  unfold classify isTransactional isNewsletter isMarketing
  simp only [hb, hlu, hn, hlp, hlp2, hns, Bool.not_true, Bool.and_false, Bool.false_or,
    Bool.false_eq_true, if_false, Bool.true_and, Bool.or_false, Bool.true_or, if_true]

/-- C3 witness: the S6 scenario message satisfies every hypothesis of the
amended claim and classifies as MARKETING with confidence 0.80. -/
theorem claim_C3_witness :
    (transactionalFrom (lowerStr (c3msgS6.from_.getD [])) = true ∧
     marketingSubject (lowerStr (c3msgS6.subject.getD [])) = true ∧
     hasListUnsub c3msgS6 = true ∧
     hTruthy c3msgS6.headers (String.toList "list-post") = false ∧
     hTruthy c3msgS6.headers (String.toList "List-Post") = false ∧
     isBounceC c3msgS6 = false ∧
     isNotification c3msgS6 = false ∧
     newsletterSubject (lowerStr (c3msgS6.subject.getD [])) = false) ∧
    classify c3msgS6 = ⟨.MARKETING, 0.8⟩ :=
  ⟨⟨by decide, by decide, by decide, by decide, by decide, by decide, by decide, by decide⟩,
    claim_C3 c3msgS6 (by decide) (by decide) (by decide) (by decide) (by decide) (by decide)
      (by decide) (by decide)⟩

end ClassifierClaims

/-! ## IMAP client (`imap-client.js`, `fetchNewMessages`) -/

/-- Decimal digits of `n`, most significant first (JS template-string
interpolation of a non-negative integer); `fuel` bounds the recursion. -/
def natDecA (fuel : Nat) (n : Nat) (acc : Str) : Str :=
  match fuel with
  | 0 => acc
  | f + 1 =>
    let acc2 := Char.ofNat (48 + n % 10) :: acc
    if n < 10 then acc2 else natDecA f (n / 10) acc2

def natToDec (n : Nat) : Str := natDecA (n + 1) n []

/-- The `months` array of `fetchNewMessages`. -/
def imapMonths : List Str :=
  [String.toList "Jan", String.toList "Feb", String.toList "Mar", String.toList "Apr",
   String.toList "May", String.toList "Jun", String.toList "Jul", String.toList "Aug",
   String.toList "Sep", String.toList "Oct", String.toList "Nov", String.toList "Dec"]

/-- The SINCE date string built by `fetchNewMessages`:
`${sinceDate.getDate()}-${months[sinceDate.getMonth()]}-${sinceDate.getFullYear()}`
(note: `getDate()` is interpolated WITHOUT zero padding). -/
def formatImapSince (dayOfMonth monthIdx year : Nat) : Str :=
  natToDec dayOfMonth ++ ('-' :: imapMonths.getD monthIdx []) ++ ('-' :: natToDec year)

/-- What `mailparser.simpleParser` returns for one raw message (`none`
models a parser throw, which the source logs and skips). -/
structure ParsedMail where
  messageId : Option Str
  subject : Option Str
  fromText : Option Str
  toText : Option Str
  text : Option Str
  html : Option Str
  headers : List (Str × Str)
  date : Option Nat
deriving DecidableEq

/-- One item of the IMAP fetch stream: its UID, the envelope message id and
the `simpleParser` outcome for its source. -/
structure FetchItem where
  uid : Nat
  envMessageId : Option Str
  parsed : Option ParsedMail
deriving DecidableEq

/-- The message record pushed by `fetchNewMessages`. -/
structure FetchedMsg where
  uid : Nat
  messageId : Option Str
  subject : Str
  from_ : Str
  toF : Str
  body : Str
  headers : List (Str × Str)
  receivedDate : Nat
deriving DecidableEq

/-- JS `a || b` on two possibly-undefined strings: the first truthy value. -/
def jsOrS (a b : Option Str) : Option Str := if truthy a then a else b

/-- JS `a || ""`. -/
def jsOrEmpty (a : Option Str) : Str := if truthy a then a.getD [] else []

/-- The `for await … of this.client.fetch(...)` loop of `fetchNewMessages`:
stops once `fetchCount >= batchSize`, skips messages whose parse throws,
and otherwise pushes the normalized record and increments `fetchCount`. -/
def fetchLoop (batchSize now : Nat) : List FetchItem → Nat → List FetchedMsg
  | [], _ => []
  | item :: rest, fetchCount =>
    if batchSize ≤ fetchCount then []
    else
      match item.parsed with
      | none => fetchLoop batchSize now rest fetchCount
      | some parsed =>
        { uid := item.uid,
          messageId := jsOrS parsed.messageId item.envMessageId,
          subject := jsOrEmpty parsed.subject,
          from_ := jsOrEmpty parsed.fromText,
          toF := jsOrEmpty parsed.toText,
          body := jsOrEmpty (jsOrS parsed.text parsed.html),
          headers := parsed.headers,
          receivedDate := parsed.date.getD now } ::
        fetchLoop batchSize now rest (fetchCount + 1)

/-- `fetchNewMessages` returns the loop's accumulated messages (the search
criteria construction is orthogonal to the batch bound). -/
def fetchNewMessages (batchSize now : Nat) (stream : List FetchItem) : List FetchedMsg :=
  fetchLoop batchSize now stream 0

section ImapClaims

theorem fetchLoop_length_le (batchSize now : Nat) (stream : List FetchItem) :
    ∀ count, (fetchLoop batchSize now stream count).length ≤ batchSize - count := by
  induction stream with
  | nil => intro count; simp [fetchLoop]
  | cons item rest ih =>
    intro count
    show (if batchSize ≤ count then [] else _).length ≤ _
    by_cases h : batchSize ≤ count
    · rw [if_pos h]; simp
    · rw [if_neg h]
      cases item.parsed with
      | none => exact ih count
      | some parsed =>
        simp only [List.length_cons]
        have := ih (count + 1)
        omega

theorem fetchLoop_length_all (batchSize now : Nat) (stream : List FetchItem)
    (hall : ∀ it ∈ stream, it.parsed.isSome = true) :
    ∀ count, (fetchLoop batchSize now stream count).length
      = min (batchSize - count) stream.length := by
  induction stream with
  | nil => intro count; simp [fetchLoop]
  | cons item rest ih =>
    intro count
    show (if batchSize ≤ count then [] else _).length = _
    by_cases h : batchSize ≤ count
    · rw [if_pos h]
      simp only [List.length_nil, List.length_cons]
      omega
    · rw [if_neg h]
      cases hp : item.parsed with
      | none =>
        have := hall item (by simp)
        rw [hp] at this
        simp at this
      | some parsed =>
        simp only [List.length_cons]
        rw [ih (fun it hit => hall it (by simp [hit])) (count + 1)]
        omega

/-- C9: `fetchNewMessages` returns at most `batch_size` messages, and a
stream of exactly `batch_size + 1` qualifying (parseable) messages yields
exactly `batch_size` messages. -/
theorem claim_C9 (batchSize now : Nat) (stream : List FetchItem) :
    (fetchNewMessages batchSize now stream).length ≤ batchSize ∧
    ((∀ it ∈ stream, it.parsed.isSome = true) → stream.length = batchSize + 1 →
      (fetchNewMessages batchSize now stream).length = batchSize) := by
  constructor
  · have := fetchLoop_length_le batchSize now stream 0
    simpa [fetchNewMessages] using this
  · intro hall hlen
    unfold fetchNewMessages
    rw [fetchLoop_length_all batchSize now stream hall 0, hlen]
    omega

/-- A three-item all-parseable fetch stream used to witness C9. -/
def c9stream : List FetchItem :=
  [⟨1, none, some ⟨none, none, none, none, none, none, [], none⟩⟩,
   ⟨2, none, some ⟨none, none, none, none, none, none, [], none⟩⟩,
   ⟨3, none, some ⟨none, none, none, none, none, none, [], none⟩⟩]

/-- C9 witness: with `batch_size = 2` and three parseable stream items,
exactly two messages are returned. -/
theorem claim_C9_witness :
    (∀ it ∈ c9stream, it.parsed.isSome = true) ∧
      (fetchNewMessages 2 0 c9stream).length = 2 :=
  ⟨by decide, (claim_C9 2 0 c9stream).2 (by decide) (by decide)⟩

/-- C7: the code formats the SINCE date with an UNPADDED day of month
(`getDate()` interpolated directly), so the sixth of January 2026 yields
`"6-Jan-2026"`, not the `"06-Jan-2026"` that both the claim and the
source's own inline comment state. -/
theorem claim_C7 :
    formatImapSince 6 0 2026 = String.toList "6-Jan-2026" ∧
    formatImapSince 6 0 2026 ≠ String.toList "06-Jan-2026" :=
  ⟨by decide, by decide⟩

end ImapClaims

/-! ## Bounce detector (`BounceDetector`) -/

def isAlphaCh (c : Char) : Bool :=
  (65 ≤ c.toNat && c.toNat ≤ 90) || (97 ≤ c.toNat && c.toNat ≤ 122)

def isAlnum (c : Char) : Bool := isAlphaCh c || isDig c

/-- JS `\w` (ASCII word character). -/
def isWordChar (c : Char) : Bool := isAlnum c || c = '_'

/-- `[a-zA-Z0-9._+-]` — the local-part class of the recipient regexes. -/
def emailLocalChar (c : Char) : Bool :=
  isAlnum c || c = '.' || c = '_' || c = '+' || c = '-'

/-- `[a-zA-Z0-9.-]` — the domain class of the recipient regexes (also the
local class of the cleaner's email regex). -/
def emailDomChar (c : Char) : Bool := isAlnum c || c = '.' || c = '-'

/-- Largest index `k` of a `.` in `drun` followed by at least two letters
(the backtracking point of greedy `[…]+\.[a-zA-Z]{2,}`). -/
def findDotK (drun : Str) : Option Nat :=
  (List.range drun.length).reverse.find? fun k =>
    decide (drun.getD k ' ' = '.') && decide (2 ≤ ((drun.drop (k + 1)).takeWhile isAlphaCh).length)

/-- Greedy match of `LOCAL+@DOM+\.[a-zA-Z]{2,}` at the head of `l`,
returning the capture and the remaining suffix.  Backtracking of the
greedy pieces is resolved as the JS engine does: the local and domain runs
are maximal, the `\.` rematch point is the last dot followed by two
letters, and the letter run is maximal. -/
def matchEmailGen (localP domP : Char → Bool) (l : Str) : Option (Str × Str) :=
  let lrun := l.takeWhile localP
  if lrun.isEmpty then none
  else
    match l.drop lrun.length with
    | '@' :: after =>
      let drun := after.takeWhile domP
      match findDotK drun with
      | some k =>
        let al := (drun.drop (k + 1)).takeWhile isAlphaCh
        some (lrun ++ '@' :: (drun.take k ++ '.' :: al),
          l.drop (lrun.length + 1 + k + 1 + al.length))
      | none => none
    | _ => none

/-- `([a-zA-Z0-9._+-]+@[a-zA-Z0-9.-]+\.[a-zA-Z]{2,})` of the recipient
patterns. -/
def matchEmailAt (l : Str) : Option (Str × Str) := matchEmailGen emailLocalChar emailDomChar l

/-- `<?EMAIL>?` (pattern 1's tail): an optional `<`, the email, an optional
`>`. -/
def matchEmailOpt (l : Str) : Option (Str × Str) :=
  let core := fun (r : Str) =>
    (matchEmailAt r).map fun pr =>
      match pr.2 with
      | '>' :: r3 => (pr.1, r3)
      | r2 => (pr.1, r2)
  match l with
  | '<' :: r2 => core r2
  | _ => core l

/-- `[:\s]` of pattern 1. -/
def colonOrWs (c : Char) : Bool := c = ':' || jsWs c

/-- Pattern 1 continuation: the lazy `.*?` gap (which cannot cross a line
terminator) followed by `(?:to|for|recipient)[:\s]+<?EMAIL>?`. -/
def p1Cont : Str → Option (Str × Str)
  | [] => none
  | c :: rest =>
    let tryW := fun (w : Str) (r : Str) =>
      if ciPfx w r then
        let r2 := r.drop w.length
        let run := r2.takeWhile colonOrWs
        if run.isEmpty then none else matchEmailOpt (r2.drop run.length)
      else none
    match tryW (String.toList "to") (c :: rest) with
    | some res => some res
    | none =>
      match tryW (String.toList "for") (c :: rest) with
      | some res => some res
      | none =>
        match tryW (String.toList "recipient") (c :: rest) with
        | some res => some res
        | none => if jsLineTerm c then none else p1Cont rest

/-- Pattern 1 `/(?:failed|undelivered).*?(?:to|for|recipient)[:\s]+<?E>?/i`
tried at the head of `l`. -/
def p1At (l : Str) : Option (Str × Str) :=
  if ciPfx (String.toList "failed") l then p1Cont (l.drop 6)
  else if ciPfx (String.toList "undelivered") l then p1Cont (l.drop 11)
  else none

/-- Pattern 2 continuation: lazy gap to `rfc822;`, then `\s*`, then the
email. -/
def p2Cont : Str → Option (Str × Str)
  | [] => none
  | c :: rest =>
    if ciPfx (String.toList "rfc822;") (c :: rest) then
      let r2 := (c :: rest).drop 7
      matchEmailAt (r2.drop (r2.takeWhile jsWs).length)
    else if jsLineTerm c then none
    else p2Cont rest

/-- Pattern 2 `/Final-Recipient:.*?rfc822;\s*E/i` tried at the head. -/
def p2At (l : Str) : Option (Str × Str) :=
  if ciPfx (String.toList "final-recipient:") l then p2Cont (l.drop 16) else none

/-- Pattern 3 continuation: lazy gap directly to the email. -/
def p3Cont : Str → Option (Str × Str)
  | [] => none
  | c :: rest =>
    match matchEmailAt (c :: rest) with
    | some res => some res
    | none => if jsLineTerm c then none else p3Cont rest

/-- Pattern 3 `/Original-Recipient:.*?E/i` tried at the head. -/
def p3At (l : Str) : Option (Str × Str) :=
  if ciPfx (String.toList "original-recipient:") l then p3Cont (l.drop 19) else none

/-- Pattern 4 `/<E>/` tried at the head: the closing `>` is required. -/
def p4At (l : Str) : Option (Str × Str) :=
  match l with
  | '<' :: r =>
    match matchEmailAt r with
    | some (cap, '>' :: rem) => some (cap, rem)
    | _ => none
  | _ => none

/-- Give back up to `k` characters of a greedy run before retrying the
email match (backtracking of `s*` in pattern 5, whose class overlaps the
email's local class). -/
def giveback : Nat → Str → Option (Str × Str)
  | 0, r => matchEmailAt r
  | k + 1, r =>
    match matchEmailAt (r.drop (k + 1)) with
    | some res => some res
    | none => giveback k r

/-- Pattern 5 `/(?:to|for|recipient|user):\\s*E/i` tried at the head.  The
double backslash makes `\\` a LITERAL backslash character and `s*` a
literal (case-insensitive) letter-run, so the pattern only matches bodies
containing a real `\` character. -/
def p5At (l : Str) : Option (Str × Str) :=
  let tryW := fun (w : Str) =>
    if ciPfx (w ++ ':' :: '\\' :: []) l then
      let r := l.drop (w.length + 2)
      let srun := r.takeWhile fun c => c = 's' || c = 'S'
      giveback srun.length r
    else none
  match tryW (String.toList "to") with
  | some res => some res
  | none =>
    match tryW (String.toList "for") with
    | some res => some res
    | none =>
      match tryW (String.toList "recipient") with
      | some res => some res
      | none => tryW (String.toList "user")

/-- Pattern 6 `/\\b(E)\\b/`: literal backslash-`b` delimiters (again a
dead pattern on real bodies); `ci` tells whether the `b` is matched
case-insensitively (the body scan adds the `i` flag, the subject match
does not). -/
def p6At (ci : Bool) (l : Str) : Option (Str × Str) :=
  let isB := fun (c : Char) => if ci then c = 'b' || c = 'B' else c = 'b'
  match l with
  | '\\' :: b :: r =>
    if isB b then
      match matchEmailAt r with
      | some (cap, '\\' :: b2 :: rem) => if isB b2 then some (cap, rem) else none
      | _ => none
    else none
  | _ => none

/-- `String.prototype.matchAll` driver: all non-overlapping captures, left
to right; `fuel` bounds the recursion (every match consumes at least one
character). -/
def scanAllF (matchAt : Str → Option (Str × Str)) : Nat → Str → List Str
  | 0, _ => []
  | _, [] => []
  | f + 1, c :: rest =>
    match matchAt (c :: rest) with
    | some (cap, rem) => cap :: scanAllF matchAt f rem
    | none => scanAllF matchAt f rest

def scanAll (matchAt : Str → Option (Str × Str)) (l : Str) : List Str :=
  scanAllF matchAt (l.length + 1) l

/-- `String.prototype.match` driver: the first capture, if any. -/
def scanFirst (matchAt : Str → Option (Str × Str)) : Str → Option Str
  | [] => none
  | c :: rest =>
    match matchAt (c :: rest) with
    | some (cap, _) => some cap
    | none => scanFirst matchAt rest

/-- lowercase hex digit `[0-9a-f]` (case-sensitive, as in the source's
non-`i` local-part test on an already-lowercased string). -/
def isHexLower (c : Char) : Bool := isDig c || (97 ≤ c.toNat && c.toNat ≤ 102)

/-- `[0-9a-fA-F]`-with-dash for the `/^[0-9a-f-]{36}@/i` UUID test. -/
def isHexDashCI (c : Char) : Bool :=
  isDig c || (97 ≤ c.toNat && c.toNat ≤ 102) || (65 ≤ c.toNat && c.toNat ≤ 70) || c = '-'

/-- `[0-9a-fA-F]` for the `/^[0-9a-f]{8}\.[0-9a-f]{8}/i` message-id test. -/
def isHexCI (c : Char) : Bool :=
  isDig c || (97 ≤ c.toNat && c.toNat ≤ 102) || (65 ≤ c.toNat && c.toNat ≤ 70)

/-- Anchored `/^[a-zA-Z0-9._+-]+@[a-zA-Z0-9.-]+\.[a-zA-Z]{2,}$/`: the email
regex must consume the whole string. -/
def emailRegexB (l : Str) : Bool :=
  match matchEmailAt l with
  | some (_, rem) => rem.isEmpty
  | none => false

/-- `/<[^>]+>/`: some `<` followed by at least one non-`>` and a `>`. -/
def hasHtmlTag : Str → Bool
  | [] => false
  | c :: rest =>
    (c = '<' &&
      (let run := rest.takeWhile fun d => !(d = '>')
       !run.isEmpty && !(rest.drop run.length).isEmpty)) ||
    hasHtmlTag rest

/-- `String.prototype.split` on `.`. -/
def splitDotA (cur : Str) : Str → List Str
  | [] => [cur.reverse]
  | c :: rest => if c = '.' then cur.reverse :: splitDotA [] rest else splitDotA (c :: cur) rest

def splitDot (l : Str) : List Str := splitDotA [] l

/-- `endsWith` for a case-insensitive literal suffix. -/
def ciSuffix (suf l : Str) : Bool :=
  decide (suf.length ≤ l.length) && ciPfx suf (l.drop (l.length - suf.length))

/-- `BounceDetector.isValidEmail`: the address validity predicate, check
for check in source order. -/
def isValidEmail (e : Str) : Bool :=
  let email := lowerStr (jsTrim e)
  if email.length > 254 || email.length < 5 then false
  else if !emailRegexB email then false
  else
    let localPart := email.takeWhile fun c => !(c = '@')
    let domain := email.drop (localPart.length + 1)
    if localPart.isEmpty || localPart.length > 64 then false
    else if 8 ≤ (localPart.takeWhile isHexLower).length then false
    else if listContains ('.' :: '.' :: []) email then false
    else if domain.isEmpty || domain.length < 3 || domain.length > 253 then false
    else if ciContains (String.toList "http://") email ||
        ciContains (String.toList "https://") email then false
    else if hasHtmlTag email then false
    else if email.any jsWs then false
    else if email.any (fun c => c = '"' || c = apos || c = '<' || c = '>') then false
    else if decide (37 ≤ email.length) && (email.take 36).all isHexDashCI &&
        decide (email.getD 36 ' ' = '@') then false
    else if ciSuffix (String.toList ".png") email || ciSuffix (String.toList ".jpg") email ||
        ciSuffix (String.toList ".jpeg") email || ciSuffix (String.toList ".gif") email ||
        ciSuffix (String.toList ".svg") email || ciSuffix (String.toList ".mp4") email ||
        ciSuffix (String.toList ".pdf") email || ciSuffix (String.toList ".doc") email ||
        ciSuffix (String.toList ".zip") email then false
    else if decide ((email.take 8).length = 8) && (email.take 8).all isHexCI &&
        decide (email.getD 8 ' ' = '.') && decide (17 ≤ email.length) &&
        ((email.drop 9).take 8).all isHexCI then false
    else if ciSuffix (String.toList "@mx.google.com") email ||
        ciSuffix (String.toList "@mx.yahoo.com") email ||
        ciSuffix (String.toList "@mx.outlook.com") email then false
    else
      let segs := splitDot domain
      match segs.getLast? with
      | none => false
      | some tld =>
        if tld.isEmpty || tld.length < 2 || (!tld.isEmpty && tld.all isDig) then false
        else
          let domainWithoutTLD := List.intercalate ('.' :: []) segs.dropLast
          if !domainWithoutTLD.isEmpty && domainWithoutTLD.all (fun c => isDig c || c = '.')
          then false
          else true

/-- Insertion into the ordered-dedup `Set` of candidates. -/
def insertUnique (l : List Str) (x : Str) : List Str :=
  if l.contains x then l else l ++ [x]

/-- Add the captures of one pattern (trim, lowercase, validate) to the
candidate set. -/
def addCands (pot : List Str) (caps : List Str) : List Str :=
  caps.foldl
    (fun acc cap =>
      let e := lowerStr (jsTrim cap)
      if isValidEmail e then insertUnique acc e else acc)
    pot

def systemAddresses : List Str :=
  [String.toList "mailer-daemon@", String.toList "postmaster@",
   String.toList "noreply@", String.toList "no-reply@"]

/-- `BounceDetector.extractRecipientEmail`: run the six patterns, in
order, over the body (`matchAll`, flags forced to `gi`) and the subject
(first match, original flags), collect valid candidates into an ordered
dedup set, drop system addresses and return the first survivor. -/
def extractRecipientEmail (body subject : Str) : Option Str :=
  let pats : List ((Str → Option (Str × Str)) × (Str → Option (Str × Str))) :=
    [(p1At, p1At), (p2At, p2At), (p3At, p3At), (p4At, p4At), (p5At, p5At),
     (p6At true, p6At false)]
  let pot := pats.foldl
    (fun acc pr =>
      let acc2 := addCands acc (scanAll pr.1 body)
      match scanFirst pr.2 subject with
      | some cap => addCands acc2 [cap]
      | none => acc2)
    []
  let valid := pot.filter fun e => !systemAddresses.any fun sys => sys.isPrefixOf e
  valid.head?

/-- The match condition of `/\b([245]\d{2})\b/` at the head of
`c :: rest` with previous character `prev`. -/
def errCodeGuard (prev : Option Char) (c : Char) (rest : Str) : Bool :=
  (match prev with
   | none => true
   | some p => !isWordChar p) &&
  (c = '2' || c = '4' || c = '5') &&
  (match rest with
   | d1 :: d2 :: rest2 =>
     isDig d1 && isDig d2 &&
     (match rest2 with
      | [] => true
      | e :: _ => !isWordChar e)
   | _ => false)

/-- `BounceDetector.extractErrorCode`: first `/\b([245]\d{2})\b/` match;
`prev` is the character before the current scan position (for the word
boundary). -/
def extractErrorCodeA (prev : Option Char) : Str → Option Str
  | [] => none
  | c :: rest =>
    if errCodeGuard prev c rest then some (c :: rest.take 2)
    else extractErrorCodeA (some c) rest

def extractErrorCode (body : Str) : Option Str := extractErrorCodeA none body

/-! ### Diagnostic extraction (`extractDiagnostic` and friends) -/

/-- The `(?:\n\n|\r\n\r\n|$)` terminator of the diagnostic captures. -/
def dTermAt (r : Str) : Bool :=
  ('\n' :: '\n' :: []).isPrefixOf r ||
  ('\r' :: '\n' :: '\r' :: '\n' :: []).isPrefixOf r || r.isEmpty

/-- Lazy `(.+?)` up to the first position satisfying `isTerm` (at least one
character captured). -/
def lazyCapGen (isTerm : Str → Bool) : Str → Option Str
  | [] => none
  | c :: rest =>
    if isTerm rest then some [c]
    else (lazyCapGen isTerm rest).map fun cap => c :: cap

/-- Greedy `\s`-run (at least `minW` long) followed by the lazy capture to
the standard terminator; when the string ends inside the run the engine
backtracks one whitespace character into the capture. -/
def capAfterWs (minW : Nat) (r : Str) : Option Str :=
  let w := r.takeWhile jsWs
  if w.length < minW then none
  else
    match r.drop w.length with
    | [] => if minW + 1 ≤ w.length then some [w.getLastD ' '] else none
    | r2 => lazyCapGen dTermAt r2

/-- `[245]\d{2}` with a left word boundary, returning the rest. -/
def code3Bounded (prev : Option Char) (l : Str) : Option Str :=
  match l with
  | c :: d1 :: d2 :: rest =>
    if (match prev with
        | none => true
        | some p => !isWordChar p) &&
        (c = '2' || c = '4' || c = '5') && isDig d1 && isDig d2 then some rest
    else none
  | _ => none

/-- `[45]\.\d+\.\d+`: enhanced status code, returning the rest. -/
def enhCode (l : Str) : Option Str :=
  match l with
  | c :: '.' :: r1 =>
    if c = '4' || c = '5' then
      let d1 := r1.takeWhile isDig
      if d1.isEmpty then none
      else
        match r1.drop d1.length with
        | '.' :: r2 =>
          let d2 := r2.takeWhile isDig
          if d2.isEmpty then none else some (r2.drop d2.length)
        | _ => none
    else none
  | _ => none

/-- Diagnostic pattern 1
`/\b[245]\d{2}\s+[45]\.\d+\.\d+\s+(.+?)(?:\n\n|\r\n\r\n|$)/s`. -/
def dg1At (prev : Option Char) (l : Str) : Option Str :=
  match code3Bounded prev l with
  | none => none
  | some r1 =>
    let w := r1.takeWhile jsWs
    if w.isEmpty then none
    else
      match enhCode (r1.drop w.length) with
      | none => none
      | some r2 => capAfterWs 1 r2

/-- Diagnostic pattern 2 adds optional `[<#]` / `[>#]` around the status
code. -/
def dg2At (prev : Option Char) (l : Str) : Option Str :=
  match code3Bounded prev l with
  | none => none
  | some r1 =>
    let w := r1.takeWhile jsWs
    if w.isEmpty then none
    else
      let r1b := r1.drop w.length
      let r1c :=
        match r1b with
        | '<' :: t => t
        | '#' :: t => t
        | _ => r1b
      match enhCode r1c with
      | none => none
      | some r2 =>
        let r2b :=
          match r2 with
          | '>' :: t => t
          | '#' :: t => t
          | _ => r2
        capAfterWs 1 r2b

/-- Diagnostic pattern 3
`/(?:Diagnostic-Code|diagnostic-code):\s*(?:smtp|SMTP);\s*(.+?)…/is`. -/
def dg3At (_prev : Option Char) (l : Str) : Option Str :=
  if ciPfx (String.toList "diagnostic-code:") l then
    let r1 := l.drop 16
    let w := r1.takeWhile jsWs
    let r2 := r1.drop w.length
    if ciPfx (String.toList "smtp;") r2 then capAfterWs 0 (r2.drop 5) else none
  else none

/-- Diagnostic pattern 4 `/(?:Status|status):\s*[45]\.\d+\.\d+\s+\((.+?)\)/is`. -/
def dg4At (_prev : Option Char) (l : Str) : Option Str :=
  if ciPfx (String.toList "status:") l then
    let r1 := l.drop 7
    let r2 := r1.drop (r1.takeWhile jsWs).length
    match enhCode r2 with
    | none => none
    | some r3 =>
      let w := r3.takeWhile jsWs
      if w.isEmpty then none
      else
        match r3.drop w.length with
        | '(' :: r4 => lazyCapGen (fun r => match r with | ')' :: _ => true | _ => false) r4
        | _ => none
  else none

/-- Lazy `.*?` (with the `s` flag: any character) up to the first position
where `hit` produces a value. -/
def lazySkipTo (hit : Str → Option Str) : Str → Option Str
  | [] => hit []
  | c :: rest =>
    match hit (c :: rest) with
    | some res => some res
    | none => lazySkipTo hit rest

/-- Diagnostic pattern 5
`/(?:Remote-MTA|Final-Recipient).*?\n.*?(?:Status|Action).*?\n.*?Diagnostic.*?:\s*(.+?)…/is`. -/
def dg5At (_prev : Option Char) (l : Str) : Option Str :=
  let afterW1 :=
    if ciPfx (String.toList "remote-mta") l then some (l.drop 10)
    else if ciPfx (String.toList "final-recipient") l then some (l.drop 15)
    else none
  match afterW1 with
  | none => none
  | some r1 =>
    lazySkipTo
      (fun r => match r with
        | '\n' :: r2 =>
          lazySkipTo
            (fun r3 =>
              let afterW2 :=
                if ciPfx (String.toList "status") r3 then some (r3.drop 6)
                else if ciPfx (String.toList "action") r3 then some (r3.drop 6)
                else none
              match afterW2 with
              | none => none
              | some r4 =>
                lazySkipTo
                  (fun r5 => match r5 with
                    | '\n' :: r6 =>
                      lazySkipTo
                        (fun r7 =>
                          if ciPfx (String.toList "diagnostic") r7 then
                            lazySkipTo
                              (fun r8 => match r8 with
                                | ':' :: r9 => capAfterWs 0 r9
                                | _ => none)
                              (r7.drop 10)
                          else none)
                        r6
                    | _ => none)
                  r4)
            r2
        | _ => none)
      r1

/-- Terminator `(?:\.|\n)` of the Gmail pattern. -/
def dotNlTerm (r : Str) : Bool :=
  match r with
  | c :: _ => c = '.' || c = '\n'
  | [] => false

/-- Diagnostic pattern 6 (Gmail)
`/Address not found.*?Your message wasn't delivered to.*?because.*?(.+?)(?:\.|\n)/is`. -/
def dg6At (_prev : Option Char) (l : Str) : Option Str :=
  if ciPfx (String.toList "address not found") l then
    lazySkipTo
      (fun r =>
        if ciPfx (String.toList "your message wasn" ++ apos :: String.toList "t delivered to") r
        then
          lazySkipTo
            (fun r2 =>
              if ciPfx (String.toList "because") r2 then
                lazyCapGen dotNlTerm (r2.drop 7)
              else none)
            (r.drop 32)
        else none)
      (l.drop 17)
  else none

/-- Diagnostic patterns 7 and 8: a fixed phrase plus the rest of its line,
all captured. -/
def dgPhraseLineAt (phrase : Str) (_prev : Option Char) (l : Str) : Option Str :=
  if ciPfx phrase l then
    let run := (l.drop phrase.length).takeWhile fun c => !(c = '\n')
    if run.isEmpty then none else some (l.take phrase.length ++ run)
  else none

/-- Diagnostic pattern 9 (Outlook)
`/(?:Delivery has failed|did not reach the following recipient).*?\n\s*(.+?)…/is`. -/
def dg9At (_prev : Option Char) (l : Str) : Option Str :=
  let afterW1 :=
    if ciPfx (String.toList "delivery has failed") l then some (l.drop 19)
    else if ciPfx (String.toList "did not reach the following recipient") l then
      some (l.drop 37)
    else none
  match afterW1 with
  | none => none
  | some r1 =>
    lazySkipTo
      (fun r => match r with
        | '\n' :: r2 => capAfterWs 0 r2
        | _ => none)
      r1

/-- The tail `\s+(?:[a-z0-9-]+\s+-\s+gsmtp|$)` of the generic SMTP
pattern. -/
def dg10Tail (r : Str) : Bool :=
  let w := r.takeWhile jsWs
  if w.isEmpty then false
  else
    match r.drop w.length with
    | [] => true
    | r2 =>
      let tok := r2.takeWhile fun c => isAlnum c || c = '-'
      if tok.isEmpty then false
      else
        let r3 := r2.drop tok.length
        let w2 := r3.takeWhile jsWs
        if w2.isEmpty then false
        else
          match r3.drop w2.length with
          | '-' :: r4 =>
            let w3 := r4.takeWhile jsWs
            if w3.isEmpty then false
            else ciPfx (String.toList "gsmtp") (r4.drop w3.length)
          | _ => false

/-- Lazy `([^\n]+?)` up to the first position satisfying `isTerm`; fails on
a line terminator. -/
def lazyCapLine (isTerm : Str → Bool) : Str → Option Str
  | [] => none
  | c :: rest =>
    if c = '\n' then none
    else if isTerm rest then some [c]
    else (lazyCapLine isTerm rest).map fun cap => c :: cap

/-- Diagnostic pattern 10
`/\b[245]\d{2}\s+([^\n]+?)\s+(?:[a-z0-9-]+\s+-\s+gsmtp|$)/i`. -/
def dg10At (prev : Option Char) (l : Str) : Option Str :=
  match code3Bounded prev l with
  | none => none
  | some r1 =>
    let w := r1.takeWhile jsWs
    if w.isEmpty then none
    else lazyCapLine dg10Tail (r1.drop w.length)

/-- The lazy `.*?(WORD2s)` scan of patterns 11 and 12: accumulate the gap
(which cannot cross a line terminator) until some second word matches;
return gap and matched word. -/
def dgPairGo (w2s : List Str) (taken : Str) : Str → Option (Str × Str)
  | [] => none
  | c :: rest =>
    match w2s.find? (fun w => ciPfx w (c :: rest)) with
    | some w2 => some (taken.reverse, (c :: rest).take w2.length)
    | none => if jsLineTerm c then none else dgPairGo w2s (c :: taken) rest

/-- Shared shape of diagnostic patterns 11 and 12:
`(WORD1s)\s+.*?(WORD2s)` with everything captured (`.` cannot cross a
line terminator — no `s` flag on these two). -/
def dgWordPairAt (w1s w2s : List Str) (_prev : Option Char) (l : Str) : Option Str :=
  match w1s.find? (fun w => ciPfx w l) with
  | none => none
  | some w1 =>
    let r1 := l.drop w1.length
    let ws := r1.takeWhile jsWs
    if ws.isEmpty then none
    else
      match dgPairGo w2s [] (r1.drop ws.length) with
      | some (gap, w2part) => some (l.take w1.length ++ ws ++ gap ++ w2part)
      | none => none

def dg11At : Option Char → Str → Option Str :=
  dgWordPairAt
    [String.toList "user", String.toList "mailbox", String.toList "recipient",
     String.toList "address"]
    [String.toList "unknown", String.toList "not found", String.toList "does not exist",
     String.toList "invalid", String.toList "disabled", String.toList "rejected"]

def dg12At : Option Char → Str → Option Str :=
  dgWordPairAt
    [String.toList "quota", String.toList "mailbox"]
    [String.toList "full", String.toList "exceeded", String.toList "over limit"]

/-- First-match driver that tracks the previous character (for patterns
with a leading `\b`). -/
def scanFirstP (matchAt : Option Char → Str → Option Str) : Option Char → Str → Option Str
  | _, [] => none
  | prev, c :: rest =>
    match matchAt prev (c :: rest) with
    | some cap => some cap
    | none => scanFirstP matchAt (some c) rest

/-! ### Diagnostic cleaning (`cleanDiagnostic`) -/

/-- Global replace driver: at each position, `matchAt` may report a match
length and its replacement; matches never have length zero, so a fuel of
`length + 1` is always enough. -/
def replaceScanF (matchAt : Str → Option (Nat × Str)) : Nat → Str → Str
  | 0, l => l
  | _, [] => []
  | f + 1, c :: rest =>
    match matchAt (c :: rest) with
    | some (n, repl) => repl ++ replaceScanF matchAt f ((c :: rest).drop n)
    | none => c :: replaceScanF matchAt f rest

def replaceScan (matchAt : Str → Option (Nat × Str)) (l : Str) : Str :=
  replaceScanF matchAt (l.length + 1) l

/-- Single (non-global) replace-with-empty driver. -/
def removeFirstScan (matchAt : Str → Option Nat) : Str → Str
  | [] => []
  | c :: rest =>
    match matchAt (c :: rest) with
    | some n => (c :: rest).drop n
    | none => c :: removeFirstScan matchAt rest

/-- Single replace driver tracking the previous char (`\b` patterns). -/
def removeFirstScanP (matchAt : Option Char → Str → Option Nat) :
    Option Char → Str → Str
  | _, [] => []
  | prev, c :: rest =>
    match matchAt prev (c :: rest) with
    | some n => (c :: rest).drop n
    | none => c :: removeFirstScanP matchAt (some c) rest

/-- `/https?:\/\/[^\s)]+/gi`: protocol and a nonempty run of
non-whitespace non-`)` characters. -/
def urlMatchAt (l : Str) : Option (Nat × Str) :=
  let proto :=
    if ciPfx (String.toList "https://") l then some 8
    else if ciPfx (String.toList "http://") l then some 7
    else none
  match proto with
  | none => none
  | some n =>
    let run := (l.drop n).takeWhile fun c => !jsWs c && !(c = ')')
    if run.isEmpty then none else some (n + run.length, [])

/-- `/<[^>]+>/g` as a replace matcher. -/
def tagMatchAt (l : Str) : Option (Nat × Str) :=
  match l with
  | '<' :: rest =>
    let run := rest.takeWhile fun d => !(d = '>')
    if run.isEmpty || (rest.drop run.length).isEmpty then none
    else some (run.length + 2, [])
  | _ => none

/-- `/&[a-z]+;/gi` as a replace matcher. -/
def entityMatchAt (l : Str) : Option (Nat × Str) :=
  match l with
  | '&' :: rest =>
    let run := rest.takeWhile isAlphaCh
    if run.isEmpty then none
    else
      match rest.drop run.length with
      | ';' :: _ => some (run.length + 2, [])
      | _ => none
  | _ => none

/-- `/X{3,}/g` for a decorative character. -/
def runMatchAt (x : Char) (l : Str) : Option (Nat × Str) :=
  let run := l.takeWhile fun c => c = x
  if 3 ≤ run.length then some (run.length, []) else none

/-- `/\(\s*\)/g`. -/
def parenMatchAt (l : Str) : Option (Nat × Str) :=
  match l with
  | '(' :: rest =>
    let w := rest.takeWhile jsWs
    match rest.drop w.length with
    | ')' :: _ => some (w.length + 2, [])
    | _ => none
  | _ => none

/-- `/[\r\n]+/g → " "`. -/
def crlfMatchAt (l : Str) : Option (Nat × Str) :=
  let run := l.takeWhile fun c => c = '\r' || c = '\n'
  if run.isEmpty then none else some (run.length, [' '])

/-- `/\s+/g → " "` as a replace matcher (same semantics as `collapseWs`). -/
def wsMatchAt (l : Str) : Option (Nat × Str) :=
  let run := l.takeWhile jsWs
  if run.isEmpty then none else some (run.length, [' '])

/-- The `^[:\-–—,;.\s]+` leading-punctuation class. -/
def leadPunct (c : Char) : Bool :=
  c = ':' || c = '-' || c.toNat = 0x2013 || c.toNat = 0x2014 || c = ',' || c = ';' ||
  c = '.' || jsWs c

/-- The `[:\-–—,;\s]+$` trailing-punctuation class (note: no dot). -/
def trailPunct (c : Char) : Bool :=
  c = ':' || c = '-' || c.toNat = 0x2013 || c.toNat = 0x2014 || c = ',' || c = ';' || jsWs c

def dropTrailing (p : Char → Bool) (l : Str) : Str := (l.reverse.dropWhile p).reverse

/-- Lazy non-`s`-flag `.*?` scan to the first of `words`, returning the
consumed length counted from the current position (`n` accumulates). -/
def lazyFindWord (words : List Str) (n : Nat) : Str → Option Nat
  | [] => none
  | c :: rest =>
    match words.find? (fun w => ciPfx w (c :: rest)) with
    | some w => some (n + w.length)
    | none => if jsLineTerm c then none else lazyFindWord words (n + 1) rest

/-- `/please notify the sender.*?(?:immediately|and)/i`. -/
def disc1At (l : Str) : Option Nat :=
  if ciPfx (String.toList "please notify the sender") l then
    (lazyFindWord [String.toList "immediately", String.toList "and"] 0 (l.drop 24)).map (24 + ·)
  else none

/-- `/this (?:message|email) (?:is|was|contains).*?confidential/i`. -/
def disc2At (l : Str) : Option Nat :=
  if ciPfx (String.toList "this ") l then
    let r := l.drop 5
    let n2 :=
      if ciPfx (String.toList "message") r then some 7
      else if ciPfx (String.toList "email") r then some 5
      else none
    match n2 with
    | none => none
    | some n2 =>
      match r.drop n2 with
      | ' ' :: r3 =>
        let n3 :=
          if ciPfx (String.toList "is") r3 then some 2
          else if ciPfx (String.toList "was") r3 then some 3
          else if ciPfx (String.toList "contains") r3 then some 8
          else none
        match n3 with
        | none => none
        | some n3 =>
          (lazyFindWord [String.toList "confidential"] 0 (r3.drop n3)).map
            (fun g => 5 + n2 + 1 + n3 + g)
      | _ => none
  else none

/-- `/if you (?:are not|received this).*?(?:intended|error)/i`. -/
def disc3At (l : Str) : Option Nat :=
  if ciPfx (String.toList "if you ") l then
    let r := l.drop 7
    let n2 :=
      if ciPfx (String.toList "are not") r then some 7
      else if ciPfx (String.toList "received this") r then some 13
      else none
    match n2 with
    | none => none
    | some n2 =>
      (lazyFindWord [String.toList "intended", String.toList "error"] 0 (r.drop n2)).map
        (fun g => 7 + n2 + g)
  else none

/-- `/you are receiving this.*?because/i`. -/
def disc4At (l : Str) : Option Nat :=
  if ciPfx (String.toList "you are receiving this") l then
    (lazyFindWord [String.toList "because"] 0 (l.drop 22)).map (22 + ·)
  else none

/-- `/unsubscribe.*?here/i`. -/
def disc5At (l : Str) : Option Nat :=
  if ciPfx (String.toList "unsubscribe") l then
    (lazyFindWord [String.toList "here"] 0 (l.drop 11)).map (11 + ·)
  else none

/-- `/\bGDPR compliant\b/i`. -/
def disc6At (prev : Option Char) (l : Str) : Option Nat :=
  if (match prev with
      | none => true
      | some p => !isWordChar p) &&
      ciPfx (String.toList "gdpr compliant") l &&
      (match l.drop 14 with
       | [] => true
       | e :: _ => !isWordChar e) then some 14
  else none

/-- A literal-only disclaimer pattern. -/
def discLitAt (pat : Str) (l : Str) : Option Nat :=
  if ciPfx pat l then some pat.length else none

/-- `BounceDetector.cleanDiagnostic`, replace for replace in source
order. -/
def cleanDiagnostic (text : Str) : Str :=
  if text.isEmpty then []
  else
    let c1 := replaceScan urlMatchAt text
    let keepEmail :=
      ciContains (String.toList "recipient") c1 || ciContains (String.toList "address") c1 ||
      ciContains (String.toList "mailbox") c1 || ciContains (String.toList "user") c1
    let emailRepl : Str := if keepEmail then String.toList "[email]" else []
    let c2 := replaceScan
      (fun l => (matchEmailGen emailDomChar emailDomChar l).map fun pr =>
        (l.length - pr.2.length, emailRepl))
      c1
    let c3 := replaceScan tagMatchAt c2
    let c4 := replaceScan entityMatchAt c3
    let c5 := replaceScan (runMatchAt '*') c4
    let c6 := replaceScan (runMatchAt '=') c5
    let c7 := replaceScan (runMatchAt '-') c6
    let c8 := replaceScan parenMatchAt c7
    let c9 := replaceScan crlfMatchAt c8
    let c10 := replaceScan wsMatchAt c9
    let c11 := c10.dropWhile leadPunct
    let c12 := dropTrailing trailPunct c11
    let c13 := removeFirstScan disc1At c12
    let c14 := removeFirstScan disc2At c13
    let c15 := removeFirstScan disc3At c14
    let c16 := removeFirstScan disc4At c15
    let c17 := removeFirstScan disc5At c16
    let c18 := removeFirstScanP disc6At none c17
    let c19 := removeFirstScan (discLitAt (String.toList "terms of service")) c18
    let c20 := removeFirstScan (discLitAt (String.toList "privacy policy")) c19
    jsTrim c20

/-! ### Diagnostic validity (`isValidDiagnostic`) -/

/-- `WORD` then (same line) `.*` then the continuation. -/
def lineSeqGo (w : Str) (cont : Str → Bool) : Str → Bool
  | [] => false
  | c :: rest =>
    (ciPfx w (c :: rest) && cont ((c :: rest).drop w.length)) ||
    (!jsLineTerm c && lineSeqGo w cont rest)

/-- Try a predicate at every start position of the string. -/
def scanStart (p : Str → Bool) : Str → Bool
  | [] => false
  | c :: rest => p (c :: rest) || scanStart p rest

/-- `/W1.*W2/i` (no `s` flag): the two words in order on one line. -/
def seqInLine (w1 w2 : Str) (l : Str) : Bool :=
  scanStart (fun r => ciPfx w1 r && lineSeqGo w2 (fun _ => true) (r.drop w1.length)) l

/-- `/W1.*W2.*W3/i` (no `s` flag). -/
def seq3InLine (w1 w2 w3 : Str) (l : Str) : Bool :=
  scanStart
    (fun r => ciPfx w1 r &&
      lineSeqGo w2 (lineSeqGo w3 (fun _ => true)) (r.drop w1.length)) l

/-- `\bW\b` search (case-insensitive, ASCII word chars). -/
def hasWordB (w : Str) : Option Char → Str → Bool
  | _, [] => false
  | prev, c :: rest =>
    ((match prev with
      | none => true
      | some p => !isWordChar p) &&
      ciPfx w (c :: rest) &&
      (match (c :: rest).drop w.length with
       | [] => true
       | e :: _ => !isWordChar e)) ||
    hasWordB w (some c) rest

/-- `/\b\d{3}\b/`. -/
def has3DigitB : Option Char → Str → Bool
  | _, [] => false
  | prev, c :: rest =>
    ((match prev with
      | none => true
      | some p => !isWordChar p) &&
      isDig c &&
      (match rest with
       | d1 :: d2 :: rest2 =>
         isDig d1 && isDig d2 &&
         (match rest2 with
          | [] => true
          | e :: _ => !isWordChar e)
       | _ => false)) ||
    has3DigitB (some c) rest

def meaningfulTerms1 : List Str :=
  [String.toList "deliver", String.toList "bounce", String.toList "fail",
   String.toList "reject", String.toList "error", String.toList "invalid",
   String.toList "exist", String.toList "quota", String.toList "full",
   String.toList "unknown", String.toList "temporary", String.toList "permanent"]

def meaningfulTerms2 : List Str :=
  [String.toList "recipient", String.toList "mailbox", String.toList "address",
   String.toList "account", String.toList "user", String.toList "server"]

/-- `BounceDetector.isValidDiagnostic`.  The 40% special-character bound
`specialCharCount > text.length * 0.4` is modelled exactly as
`10 * count > 4 * length` (the float multiply cannot change the integer
comparison for the string lengths involved here). -/
def isValidDiagnostic (text : Str) : Bool :=
  if text.isEmpty || text.length < 10 then false
  else if !text.any isAlphaCh then false
  else
    let specialCharCount := (text.filter fun c => !(isAlnum c || jsWs c)).length
    if 4 * text.length < 10 * specialCharCount then false
    else if ciContains (String.toList "get ready for") text ||
        ciContains (String.toList "take a quick look") text ||
        ciContains (String.toList "you are receiving this") text ||
        ciContains (String.toList "enable auto") text ||
        seqInLine (String.toList "schedule") (String.toList "notetaker") text ||
        ciContains (String.toList "capture every conversation") text ||
        ciContains (String.toList "committed to protecting") text ||
        ciContains (String.toList "review our terms") text then false
    else
      meaningfulTerms1.any (fun w => hasWordB w none text) ||
      meaningfulTerms2.any (fun w => hasWordB w none text) ||
      has3DigitB none text

/-- `BounceDetector.extractDiagnostic`: try each pattern in order; clean
the first capture and accept it only if valid, truncated to 300 chars. -/
def extractDiagnosticGo (body : Str) : List (Option Char → Str → Option Str) → Option Str
  | [] => none
  | p :: ps =>
    match scanFirstP p none body with
    | some cap =>
      let d := cleanDiagnostic (jsTrim cap)
      if isValidDiagnostic d then some (d.take 300) else extractDiagnosticGo body ps
    | none => extractDiagnosticGo body ps

def extractDiagnostic (body : Str) : Option Str :=
  extractDiagnosticGo body
    [dg1At, dg2At, dg3At, dg4At, dg5At, dg6At,
     dgPhraseLineAt (String.toList "the email account that you tried to reach does not exist"),
     dgPhraseLineAt (String.toList "the recipient server did not accept our requests"),
     dg9At, dg10At, dg11At, dg12At]

/-! ### Specification view of the error-code scan (for claim C6) -/

/-- `Modelled from the spec words of C6's amendment`: position `i` of `l`
carries a `[245]\d{2}` occurrence delimited by word boundaries (no word
character — letter, digit or underscore — directly before or after). -/
def boundedAtP (prev : Option Char) (l : Str) (i : Nat) : Bool :=
  (match i with
   | 0 =>
     match prev with
     | none => true
     | some p => !isWordChar p
   | j + 1 =>
     match l[j]? with
     | some p => !isWordChar p
     | none => false) &&
  ((match l[i]?, l[i + 1]?, l[i + 2]? with
    | some c, some d1, some d2 => (c = '2' || c = '4' || c = '5') && isDig d1 && isDig d2
    | _, _, _ => false) &&
   (match l[i + 3]? with
    | none => true
    | some e => !isWordChar e))

theorem boundedAtP_shift (prev : Option Char) (c : Char) (rest : Str) (i : Nat) :
    boundedAtP prev (c :: rest) (i + 1) = boundedAtP (some c) rest i := by
  unfold boundedAtP
  cases i with
  | zero => simp
  | succ k => simp

theorem boundedAtP_zero (prev : Option Char) (c : Char) (rest : Str) :
    boundedAtP prev (c :: rest) 0 = errCodeGuard prev c rest := by
  cases rest with
  | nil => unfold boundedAtP errCodeGuard; simp
  | cons d1 rest1 =>
    cases rest1 with
    | nil => unfold boundedAtP errCodeGuard; simp
    | cons d2 rest2 =>
      cases rest2 with
      | nil => unfold boundedAtP errCodeGuard; simp [Bool.and_assoc]
      | cons e rest3 => unfold boundedAtP errCodeGuard; simp [Bool.and_assoc]

theorem extractErrorCodeA_spec (l : Str) : ∀ prev : Option Char,
    (extractErrorCodeA prev l = none → ∀ i, boundedAtP prev l i = false) ∧
    (∀ code, extractErrorCodeA prev l = some code →
      ∃ i, boundedAtP prev l i = true ∧ code = (l.drop i).take 3 ∧
        ∀ j, j < i → boundedAtP prev l j = false) := by
  induction l with
  | nil =>
    intro prev
    constructor
    · intro _ i
      unfold boundedAtP
      simp
    · intro code hcode
      exact absurd hcode (by simp [extractErrorCodeA])
  | cons c rest ih =>
    intro prev
    have hunf : extractErrorCodeA prev (c :: rest) =
        if errCodeGuard prev c rest then some (c :: rest.take 2)
        else extractErrorCodeA (some c) rest := rfl
    by_cases hC : errCodeGuard prev c rest = true
    · constructor
      · intro hnone
        rw [hunf, if_pos hC] at hnone
        exact absurd hnone (by simp)
      · intro code hcode
        rw [hunf, if_pos hC] at hcode
        refine ⟨0, by rw [boundedAtP_zero]; exact hC, ?_, fun j hj => absurd hj (by omega)⟩
        simp only [List.drop_zero, List.take_succ_cons]
        exact (Option.some.injEq _ _ ▸ hcode).symm
    · have hCf : errCodeGuard prev c rest = false := by
        revert hC; cases errCodeGuard prev c rest <;> simp
      have hne : extractErrorCodeA prev (c :: rest) = extractErrorCodeA (some c) rest := by
        rw [hunf, if_neg (by rw [hCf]; simp)]
      have ihc := ih (some c)
      constructor
      · intro hnone i
        cases i with
        | zero => rw [boundedAtP_zero]; exact hCf
        | succ k =>
          rw [boundedAtP_shift]
          exact ihc.1 (hne ▸ hnone) k
      · intro code hcode
        rw [hne] at hcode
        obtain ⟨i, hb, hcap, hmin⟩ := ihc.2 code hcode
        refine ⟨i + 1, ?_, ?_, ?_⟩
        · rw [boundedAtP_shift]; exact hb
        · rw [List.drop_succ_cons]; exact hcap
        · intro j hj
          cases j with
          | zero => rw [boundedAtP_zero]; exact hCf
          | succ k =>
            rw [boundedAtP_shift]
            exact hmin k (by omega)

theorem boundedAtP_head {prev : Option Char} {l : Str} {i : Nat}
    (h : boundedAtP prev l i = true) : ∃ c, l[i]? = some c := by
  unfold boundedAtP at h
  simp only [Bool.and_eq_true] at h
  obtain ⟨-, h2, -⟩ := h
  revert h2
  cases hx : l[i]? with
  | none => cases l[i + 1]? <;> cases l[i + 2]? <;> simp
  | some c => exact fun _ => ⟨c, rfl⟩

theorem spec_code_ne_nil {prev : Option Char} {l : Str} {i : Nat}
    (h : boundedAtP prev l i = true) : (l.drop i).take 3 ≠ [] := by
  obtain ⟨c, hc⟩ := boundedAtP_head h
  have hd : (l.drop i)[0]? = some c := by
    rw [List.getElem?_drop]
    simpa using hc
  intro hnil
  rcases List.take_eq_nil_iff.mp hnil with h3 | hdrop
  · exact absurd h3 (by omega)
  · rw [hdrop] at hd
    simp at hd

/-! ### Bounce type and `parseBounce` -/

def hardBounceCodes : List Str :=
  [String.toList "550", String.toList "551", String.toList "552",
   String.toList "553", String.toList "554"]

def softBounceCodes : List Str :=
  [String.toList "450", String.toList "451", String.toList "452", String.toList "453"]

/-- `BounceDetector.classifyBounceType`. -/
def classifyBounceType (errorCode : Option Str) (body : Str) : Str :=
  match errorCode with
  | none =>
    if seq3InLine (String.toList "user") (String.toList "not") (String.toList "found") body ||
        seq3InLine (String.toList "mailbox") (String.toList "not") (String.toList "found") body ||
        seqInLine (String.toList "account") (String.toList "disabled") body then
      String.toList "HARD"
    else if seqInLine (String.toList "mailbox") (String.toList "full") body ||
        seqInLine (String.toList "quota") (String.toList "exceeded") body ||
        ciContains (String.toList "temporarily") body then
      String.toList "SOFT"
    else String.toList "UNKNOWN"
  | some code =>
    if hardBounceCodes.contains code then String.toList "HARD"
    else if softBounceCodes.contains code then String.toList "SOFT"
    else if ('5' :: []).isPrefixOf code then String.toList "HARD"
    else if ('4' :: []).isPrefixOf code then String.toList "SOFT"
    else String.toList "UNKNOWN"

structure BounceData where
  failedRecipient : Option Str
  errorCode : Str
  diagnostic : Str
  bounceType : Str
deriving DecidableEq

/-- `BounceDetector.parseBounce` on the `body`/`subject` fields of the
message object (the only fields it reads; the DEBUG_BOUNCES branch only
logs). -/
def parseBounce (body0 subject0 : Option Str) : BounceData :=
  let body := jsOrEmpty body0
  let subject := jsOrEmpty subject0
  let failedRecipient := extractRecipientEmail body subject
  let errorCode := extractErrorCode body
  let diagnostic := extractDiagnostic body
  let bounceType := classifyBounceType errorCode body
  { failedRecipient := failedRecipient,
    errorCode :=
      match errorCode with
      | some c => if c.isEmpty then String.toList "UNKNOWN" else c
      | none => String.toList "UNKNOWN",
    diagnostic :=
      match diagnostic with
      | some d => if d.isEmpty then String.toList "No diagnostic information available" else d
      | none => String.toList "No diagnostic information available",
    bounceType := bounceType }

section BounceCodeClaims

theorem parseBounce_errorCode (body0 subject0 : Option Str) :
    (parseBounce body0 subject0).errorCode =
      match extractErrorCode (jsOrEmpty body0) with
      | some c => if c.isEmpty then String.toList "UNKNOWN" else c
      | none => String.toList "UNKNOWN" := rfl

/-- C6 is refuted as stated: the source regex is `/\b([245]\d{2})\b/`, with
WORD BOUNDARIES, not a bare substring search.  In the body `"1550"` the
substring `"550"` matches `[245]\d{2}`, yet the extracted code is
`"UNKNOWN"` because no boundary-delimited occurrence exists. -/
theorem claim_C6_counterexample :
    ((String.toList "1550").drop 1).take 3 = String.toList "550" ∧
    (parseBounce (some (String.toList "1550")) none).errorCode = String.toList "UNKNOWN" :=
  ⟨by decide, by decide⟩

/-- C6 (amended): the extracted SMTP error code is the FIRST
word-boundary-delimited occurrence of `[245]\d{2}` in the body (no
letter, digit or underscore directly before or after it), and the code is
`"UNKNOWN"` exactly when no such delimited occurrence exists.  Plain
substrings inside longer words or digit runs do not count. -/
theorem claim_C6 (body0 subject0 : Option Str) :
    ((parseBounce body0 subject0).errorCode = String.toList "UNKNOWN" ↔
      extractErrorCode (jsOrEmpty body0) = none) ∧
    (extractErrorCode (jsOrEmpty body0) = none ↔
      ∀ i, boundedAtP none (jsOrEmpty body0) i = false) ∧
    (∀ code, extractErrorCode (jsOrEmpty body0) = some code →
      (parseBounce body0 subject0).errorCode = code ∧
      ∃ i, boundedAtP none (jsOrEmpty body0) i = true ∧
        code = ((jsOrEmpty body0).drop i).take 3 ∧
        ∀ j, j < i → boundedAtP none (jsOrEmpty body0) j = false) := by
  have spec := extractErrorCodeA_spec (jsOrEmpty body0) none
  have hcode : ∀ code, extractErrorCode (jsOrEmpty body0) = some code → code ≠ [] := by
    intro code hc
    obtain ⟨i, hb, hcap, -⟩ := spec.2 code hc
    rw [hcap]
    exact spec_code_ne_nil hb
  refine ⟨?_, ⟨fun h => spec.1 h, ?_⟩, ?_⟩
  · rw [parseBounce_errorCode]
    cases hx : extractErrorCode (jsOrEmpty body0) with
    | none => simp
    | some code =>
      have hne := hcode code hx
      have hempty : code.isEmpty = false := by
        cases code with
        | nil => exact absurd rfl hne
        | cons a b => rfl
      simp only [hempty, Bool.false_eq_true, if_false]
      constructor
      · intro h
        exact absurd (h ▸ rfl : code.length = 7) (by
          have := List.length_take_le 3 ((jsOrEmpty body0).drop 0)
          obtain ⟨i, -, hcap, -⟩ := spec.2 code hx
          rw [hcap]
          have := List.length_take_le 3 ((jsOrEmpty body0).drop i)
          omega)
      · intro h
        simp at h
  · intro hall
    cases hx : extractErrorCode (jsOrEmpty body0) with
    | none => rfl
    | some code =>
      obtain ⟨i, hb, -, -⟩ := spec.2 code hx
      rw [hall i] at hb
      simp at hb
  · intro code hx
    refine ⟨?_, spec.2 code hx⟩
    rw [parseBounce_errorCode, hx]
    have hempty : code.isEmpty = false := by
      cases hcn : code with
      | nil => exact absurd hcn (hcode code hx)
      | cons a b => rfl
    simp [hempty]

/-- C6 witness: in the body `"x 550 y"` the code `550` is delimited by
word boundaries at index 2; the amended claim applies and the parsed
error code is `"550"`. -/
theorem claim_C6_witness :
    extractErrorCode (jsOrEmpty (some (String.toList "x 550 y"))) =
        some (String.toList "550") ∧
    ((parseBounce (some (String.toList "x 550 y")) none).errorCode = String.toList "550" ∧
      ∃ i, boundedAtP none (jsOrEmpty (some (String.toList "x 550 y"))) i = true ∧
        String.toList "550" = ((jsOrEmpty (some (String.toList "x 550 y"))).drop i).take 3 ∧
        ∀ j, j < i → boundedAtP none (jsOrEmpty (some (String.toList "x 550 y"))) j = false) :=
  ⟨by decide,
    (claim_C6 (some (String.toList "x 550 y")) none).2.2 (String.toList "550") (by decide)⟩

end BounceCodeClaims

/-! ## Enhanced processor (`enhanced-processor.js`) and thread builder

The Supabase store is external; its state is the explicit `DB` record and
store-operation failures are injected through `Faults`.  Timestamps are
`Nat`s, with `new Date()` passed in as `now`. -/

/-- A message as handed to `processMessage` (the union of the fields the
processor reads; fields the IMAP layer does not set are `none`/`undef`). -/
structure Msg where
  uid : Nat
  messageId : Option Str
  subject : Option Str
  from_ : Option Str
  toF : JsVal
  cc : JsVal
  bcc : JsVal
  body : Option Str
  headers : List (Str × Str)
  inReplyTo : Option Str
  references : JsVal
  receivedAt : Option Nat
  sentAt : Option Nat
  attachments : Option Nat
  size : Option Nat
deriving DecidableEq

/-- `emails` table row (the columns `processMessage` inserts). -/
structure EmailRow where
  id : Nat
  user_id : Nat
  mailbox_id : Nat
  uid : Nat
  message_id : Str
  subject : Str
  from_address : Str
  from_name : Str
  to_addresses : List Str
  cc_addresses : List Str
  bcc_addresses : List Str
  category : Category
  category_confidence : ℚ
  thread_id : Nat
  in_reply_to : Option Str
  reference_ids : List Str
  body_preview : Str
  has_attachments : Bool
  is_read : Bool
  is_starred : Bool
  is_archived : Bool
  received_at : Nat
  sent_at : Nat
  size_bytes : Nat
  headers : List (Str × Str)
deriving DecidableEq

/-- `email_threads` table row (columns the thread builder writes). -/
structure ThreadRow where
  id : Nat
  user_id : Nat
  mailbox_id : Nat
  subject : Str
  normalized_subject : Str
  participants : List Str
  first_message_at : Nat
  last_message_at : Nat
  message_count : Nat
  is_unread : Bool
deriving DecidableEq

/-- `email_bounces` table row. -/
structure BounceRow where
  id : Nat
  user_id : Nat
  mailbox_id : Nat
  email : Str
  bounce_type : Str
  error_code : Str
  reason : Str
  failure_count : Nat
  first_failed_at : Nat
  last_failed_at : Nat
deriving DecidableEq

/-- `email_bounce_events` table row. -/
structure BounceEventRow where
  bounce_id : Nat
  user_id : Nat
  message_uid : Nat
  error_code : Str
  diagnostic : Str
  occurred_at : Nat
deriving DecidableEq

inductive MStatus where
  | ACTIVE | ERROR | DISABLED
deriving DecidableEq

/-- `mailboxes` table row (the columns the coordinator reads/writes). -/
structure Mailbox where
  id : Nat
  user_id : Nat
  imap_host : Str
  last_synced_uid : Nat
  last_synced_at : Option Nat
  status : MStatus
  last_error : Option Str
deriving DecidableEq

/-- The store state. -/
structure DB where
  mailboxes : List Mailbox
  emails : List EmailRow
  threads : List ThreadRow
  bounces : List BounceRow
  bounceEvents : List BounceEventRow
  nextEmailId : Nat
  nextThreadId : Nat
  nextBounceId : Nat
deriving DecidableEq

/-- Injected store/IMAP failures (the store is an external collaborator;
each flag makes the corresponding operation return its error branch). -/
structure Faults where
  cycleFails : Bool
  cycleError : Str
  insertEmail : Nat → Bool
  insertThread : Bool
  updateThread : Bool
  rpcIncrement : Bool
  directUpdate : Bool
  insertBounce : Bool
  insertEvent : Bool

/-- `EnhancedEmailProcessor.normalizeEmailArray` (`!value → []`, arrays
kept, strings wrapped). -/
def normalizeEmailArray : JsVal → List Str
  | .undef => []
  | .arr l => l
  | .str s => if s.isEmpty then [] else [s]

/-- Lazy `(.+?)` capture up to a `>` (the `.` cannot match a line
terminator). -/
def lazyCapToGt : Str → Option Str
  | [] => none
  | c :: rest =>
    if jsLineTerm c then none
    else
      match rest with
      | '>' :: _ => some [c]
      | _ => (lazyCapToGt rest).map fun cap => c :: cap

/-- First `/<(.+?)>/` capture. -/
def angleCap : Str → Option Str
  | [] => none
  | c :: rest =>
    if c = '<' then
      match lazyCapToGt rest with
      | some inner => some inner
      | none => angleCap rest
    else angleCap rest

/-- `ThreadBuilder.extractEmailAddress`. -/
def extractEmailAddress (full : Str) : Str :=
  if full.isEmpty then []
  else
    match angleCap full with
    | some inner => lowerStr inner
    | none => lowerStr (jsTrim full)

/-- The argument object `processMessage` passes to `findOrCreateThread`
(`to`/`cc`/`references` already normalized to arrays, `receivedAt` already
defaulted to now). -/
structure ThreadInput where
  subject : Option Str
  from_ : Option Str
  toA : List Str
  ccA : List Str
  inReplyTo : Option Str
  references : List Str
  receivedAt : Nat

/-- `ThreadBuilder.extractParticipants`: insertion-ordered dedup of the
from/to/cc addresses, empties dropped. -/
def extractParticipants (email : ThreadInput) : List Str :=
  let p0 : List Str := []
  let p1 :=
    if truthy email.from_ then insertUnique p0 (extractEmailAddress (email.from_.getD []))
    else p0
  let p2 := email.toA.foldl (fun acc a => insertUnique acc (extractEmailAddress a)) p1
  let p3 := email.ccA.foldl (fun acc a => insertUnique acc (extractEmailAddress a)) p2
  p3.filter fun s => !s.isEmpty

def sevenDaysMs : Nat := 7 * 24 * 60 * 60 * 1000

/-- `ThreadBuilder.findOrCreateThread`: In-Reply-To lookup, References
lookup, normalized-subject lookup within seven days, then create.  The
thread insert can fail (`Faults.insertThread`), which the source
rethrows. -/
def findOrCreateThread (f : Faults) (now : Nat) (mailboxId userId : Nat)
    (email : ThreadInput) (db : DB) : Except Unit (Nat × DB) :=
  match (if truthy email.inReplyTo then
      (db.emails.find? fun e =>
        decide (e.mailbox_id = mailboxId) &&
        decide (e.message_id = email.inReplyTo.getD [])).map (fun parent => parent.thread_id)
    else none) with
  | some tid => .ok (tid, db)
  | none =>
    match (if !email.references.isEmpty then
        (db.emails.find? fun e =>
          decide (e.mailbox_id = mailboxId) &&
          email.references.contains e.message_id).map (fun r => r.thread_id)
      else none) with
    | some tid => .ok (tid, db)
    | none =>
      match (if decide (5 < (normalizeSubject email.subject).length) then
          (db.threads.find? fun t =>
            decide (t.mailbox_id = mailboxId) &&
            decide (t.normalized_subject = normalizeSubject email.subject) &&
            decide (now - sevenDaysMs ≤ t.last_message_at)).map (fun t => t.id)
        else none) with
      | some tid => .ok (tid, db)
      | none =>
        if f.insertThread then .error ()
        else
          .ok (db.nextThreadId,
            { db with
              threads := db.threads ++
                [{ id := db.nextThreadId,
                   user_id := userId,
                   mailbox_id := mailboxId,
                   subject :=
                     if truthy email.subject then email.subject.getD []
                     else String.toList "(No Subject)",
                   normalized_subject := normalizeSubject email.subject,
                   participants := extractParticipants email,
                   first_message_at := email.receivedAt,
                   last_message_at := email.receivedAt,
                   message_count := 1,
                   is_unread := true }],
              nextThreadId := db.nextThreadId + 1 })

/-- `ThreadBuilder.updateThreadStats`: recompute count, last-message time
(the `received_at` of the first row in descending order, i.e. the
maximum), unread flag and participants from the thread's emails; both a
missing thread list and an update error are swallowed. -/
def updateThreadStats (f : Faults) (threadId : Nat) (db : DB) : DB :=
  let messages := db.emails.filter fun e => decide (e.thread_id = threadId)
  if messages.isEmpty then db
  else
    let messageCount := messages.length
    let lastMessageAt := messages.foldl (fun a e => max a e.received_at) 0
    let isUnread := messages.any fun e => !e.is_read
    let participants :=
      ((messages.map fun e => extractEmailAddress e.from_address).foldl insertUnique []).filter
        fun s => !s.isEmpty
    if f.updateThread then db
    else
      { db with
        threads := db.threads.map fun t =>
          if t.id = threadId then
            { t with message_count := messageCount, last_message_at := lastMessageAt,
                     is_unread := isUnread, participants := participants }
          else t }

/-- `EnhancedEmailProcessor.extractPreview`: strip HTML tags to spaces,
collapse whitespace, trim, first 300 chars. -/
def extractPreview (body : Option Str) : Str :=
  if !truthy body then []
  else
    let text1 := replaceScan (fun l => (tagMatchAt l).map fun pr => (pr.1, [' ']))
      (body.getD [])
    (jsTrim (collapseWs text1)).take 300

/-- The anchored name/address match `/^(.+?)\s*<(.+?)>$/` of
`parseFromAddress`, returning `(name, address)`; `nameRev` accumulates the
lazily-grown name. -/
def pfGo (nameRev : Str) : Str → Option (Str × Str)
  | [] => none
  | c :: rest =>
    if jsLineTerm c then none
    else
      let nameRev2 := c :: nameRev
      let w := rest.takeWhile jsWs
      let tryHere :=
        match rest.drop w.length with
        | '<' :: r2 =>
          if decide (2 ≤ r2.length) && (r2.getLast? == some '>') &&
              r2.dropLast.all (fun d => !jsLineTerm d) && !r2.dropLast.isEmpty then
            some (nameRev2.reverse, r2.dropLast)
          else none
        | _ => none
      match tryHere with
      | some res => some res
      | none => pfGo nameRev2 rest

/-- `EnhancedEmailProcessor.parseFromAddress`, returning
`(address, name)`. -/
def parseFromAddress (from0 : Option Str) : Str × Str :=
  if !truthy from0 then ([], [])
  else
    let f := from0.getD []
    match pfGo [] f with
    | some (name, addr) =>
      (lowerStr (jsTrim addr), jsTrim (name.filter fun c => !(c = apos || c = '"')))
    | none => (lowerStr (jsTrim f), (jsTrim f).takeWhile fun c => !(c = '@'))

/-- The classifier input `processMessage` builds (after array
normalization). -/
def msgToCMsg (msg : Msg) (toA : List Str) : CMsg :=
  { from_ := msg.from_, subject := msg.subject, body := msg.body,
    toF := .arr toA, headers := msg.headers }

/-- Append one `email_bounce_events` row (step 4 of `processBounce`); an
insert error is ignored by the source. -/
def insertEvent (f : Faults) (now userId bounceId : Nat) (msg : Msg)
    (bounceData : BounceData) (db : DB) : DB :=
  if f.insertEvent then db
  else
    { db with bounceEvents := db.bounceEvents ++
        [{ bounce_id := bounceId, user_id := userId, message_uid := msg.uid,
           error_code := bounceData.errorCode, diagnostic := bounceData.diagnostic,
           occurred_at := now }] }

/-- `EnhancedEmailProcessor.processBounce`: upsert the per-recipient
aggregate then append an event; every store failure is swallowed (the
whole function is wrapped in a catch that only logs). -/
def processBounce (f : Faults) (now mailboxId userId : Nat) (msg : Msg)
    (bounceData : BounceData) (db : DB) : DB :=
  match bounceData.failedRecipient with
  | none => db
  | some rec =>
    match db.bounces.find? (fun b =>
        decide (b.user_id = userId) && decide (b.mailbox_id = mailboxId) &&
        decide (b.email = rec)) with
    | some existing =>
      if f.rpcIncrement then
        if f.directUpdate then db
        else
          let db1 :=
            { db with bounces := db.bounces.map fun b =>
                if b.id = existing.id then
                  { b with failure_count := existing.failure_count + 1,
                           last_failed_at := now }
                else b }
          insertEvent f now userId existing.id msg bounceData db1
      else
        let db1 :=
          { db with bounces := db.bounces.map fun b =>
              if b.id = existing.id then
                { b with failure_count := b.failure_count + 1, last_failed_at := now }
              else b }
        insertEvent f now userId existing.id msg bounceData db1
    | none =>
      if f.insertBounce then db
      else
        let newB : BounceRow :=
          { id := db.nextBounceId, user_id := userId, mailbox_id := mailboxId,
            email := rec, bounce_type := bounceData.bounceType,
            error_code := bounceData.errorCode, reason := bounceData.diagnostic,
            failure_count := 1, first_failed_at := now, last_failed_at := now }
        let db1 := { db with bounces := db.bounces ++ [newB],
                             nextBounceId := db.nextBounceId + 1 }
        insertEvent f now userId newB.id msg bounceData db1

/-- `EnhancedEmailProcessor.processMessage`: dedup guard on
`(mailbox_id, uid)`, array normalization, classify, thread resolution,
email insert (which can fail and is rethrown), thread stats update, and
the bounce branch. -/
def processMessage (f : Faults) (now : Nat) (mb : Mailbox) (msg : Msg) (db : DB) :
    Except Unit DB :=
  if (db.emails.find? fun e =>
      decide (e.mailbox_id = mb.id) && decide (e.uid = msg.uid)).isSome then
    .ok db
  else
    let toA := normalizeEmailArray msg.toF
    let ccA := normalizeEmailArray msg.cc
    let bccA := normalizeEmailArray msg.bcc
    let refs := normalizeEmailArray msg.references
    let classification := classify (msgToCMsg msg toA)
    match findOrCreateThread f now mb.id mb.user_id
        { subject := msg.subject, from_ := msg.from_, toA := toA, ccA := ccA,
          inReplyTo := msg.inReplyTo, references := refs,
          receivedAt := msg.receivedAt.getD now } db with
    | .error e => .error e
    | .ok (threadId, db1) =>
      let bodyPreview := extractPreview msg.body
      let pf := parseFromAddress msg.from_
      if f.insertEmail msg.uid then .error ()
      else
        let row : EmailRow :=
          { id := db1.nextEmailId,
            user_id := mb.user_id,
            mailbox_id := mb.id,
            uid := msg.uid,
            message_id :=
              if truthy msg.messageId then msg.messageId.getD []
              else natToDec msg.uid ++ '@' :: mb.imap_host,
            subject :=
              if truthy msg.subject then msg.subject.getD []
              else String.toList "(No Subject)",
            from_address := pf.1,
            from_name := pf.2,
            to_addresses := toA,
            cc_addresses := ccA,
            bcc_addresses := bccA,
            category := classification.category,
            category_confidence := classification.confidence,
            thread_id := threadId,
            in_reply_to := msg.inReplyTo,
            reference_ids := refs,
            body_preview := bodyPreview,
            has_attachments :=
              match msg.attachments with
              | some n => decide (0 < n)
              | none => false,
            is_read := false,
            is_starred := false,
            is_archived := false,
            received_at := msg.receivedAt.getD now,
            sent_at := msg.sentAt.getD (msg.receivedAt.getD now),
            size_bytes := msg.size.getD 0,
            headers := msg.headers }
        let db2 := { db1 with emails := db1.emails ++ [row],
                              nextEmailId := db1.nextEmailId + 1 }
        let db3 := updateThreadStats f threadId db2
        if classification.category = Category.BOUNCE then
          let bounceData := parseBounce msg.body msg.subject
          match bounceData.failedRecipient with
          | some _ => .ok (processBounce f now mb.id mb.user_id msg bounceData db3)
          | none => .ok db3
        else .ok db3

/-- Update the mailbox row (the coordinator's `update(...).eq("id", id)`). -/
def updateMailboxRec (db : DB) (mailboxId : Nat) (g : Mailbox → Mailbox) : DB :=
  { db with mailboxes := db.mailboxes.map fun m => if m.id = mailboxId then g m else m }

/-- `EnhancedEmailProcessor.processMailbox`: load the ACTIVE mailbox,
fetch (`fetched` is the IMAP result; `Faults.cycleFails` models a
decrypt/connect/fetch throw handled by the outer catch), return early on
zero messages, process each message while tracking the largest UID seen
(advanced BEFORE the per-message try), then write back
`last_synced_uid`/`last_synced_at`.  The per-message `isBounceMessage`
call of the source only feeds a log counter and has no store effect. -/
def processMailbox (f : Faults) (now : Nat) (mailboxId : Nat) (fetched : List Msg)
    (db : DB) : DB :=
  match db.mailboxes.find? (fun m =>
      decide (m.id = mailboxId) && decide (m.status = MStatus.ACTIVE)) with
  | none => db
  | some mailbox =>
    if f.cycleFails then
      updateMailboxRec db mailboxId fun m =>
        { m with status := .ERROR, last_error := some f.cycleError }
    else if fetched.isEmpty then db
    else
      let result := fetched.foldl
        (fun (acc : Nat × DB) message =>
          let maxUid := if acc.1 < message.uid then message.uid else acc.1
          match processMessage f now mailbox message acc.2 with
          | .ok db2 => (maxUid, db2)
          | .error _ => (maxUid, acc.2))
        (mailbox.last_synced_uid, db)
      updateMailboxRec result.2 mailboxId fun m =>
        { m with last_synced_uid := result.1, last_synced_at := some now,
                 status := .ACTIVE, last_error := none }

section ProcessorLemmas

theorem findOrCreateThread_pres {f : Faults} {now mailboxId userId : Nat}
    {email : ThreadInput} {db : DB} {tid : Nat} {db' : DB}
    (h : findOrCreateThread f now mailboxId userId email db = .ok (tid, db')) :
    db'.mailboxes = db.mailboxes ∧ db'.emails = db.emails ∧
    db'.bounces = db.bounces ∧ db'.bounceEvents = db.bounceEvents ∧
    db'.nextEmailId = db.nextEmailId ∧ db'.nextBounceId = db.nextBounceId := by
  unfold findOrCreateThread at h
  repeat' split at h
  all_goals
    first
    | exact Except.noConfusion h
    | (injection h with h1
       injection h1 with ha hb
       subst hb
       exact ⟨rfl, rfl, rfl, rfl, rfl, rfl⟩)

theorem findOrCreateThread_ok {f : Faults} (now mailboxId userId : Nat)
    (email : ThreadInput) (db : DB) (h : f.insertThread = false) :
    ∃ tid db', findOrCreateThread f now mailboxId userId email db = .ok (tid, db') := by
  unfold findOrCreateThread
  repeat' split
  all_goals first
    | exact ⟨_, _, rfl⟩
    | simp_all

theorem updateThreadStats_pres (f : Faults) (tid : Nat) (db : DB) :
    (updateThreadStats f tid db).mailboxes = db.mailboxes ∧
    (updateThreadStats f tid db).emails = db.emails ∧
    (updateThreadStats f tid db).bounces = db.bounces ∧
    (updateThreadStats f tid db).bounceEvents = db.bounceEvents ∧
    (updateThreadStats f tid db).nextEmailId = db.nextEmailId ∧
    (updateThreadStats f tid db).nextBounceId = db.nextBounceId := by
  unfold updateThreadStats
  simp only []
  repeat' split
  all_goals exact ⟨rfl, rfl, rfl, rfl, rfl, rfl⟩

theorem insertEvent_pres (f : Faults) (now userId bounceId : Nat) (msg : Msg)
    (bd : BounceData) (db : DB) :
    (insertEvent f now userId bounceId msg bd db).mailboxes = db.mailboxes ∧
    (insertEvent f now userId bounceId msg bd db).emails = db.emails ∧
    (insertEvent f now userId bounceId msg bd db).threads = db.threads ∧
    (insertEvent f now userId bounceId msg bd db).bounces = db.bounces := by
  unfold insertEvent
  split
  · exact ⟨rfl, rfl, rfl, rfl⟩
  · exact ⟨rfl, rfl, rfl, rfl⟩

theorem processBounce_pres (f : Faults) (now mailboxId userId : Nat) (msg : Msg)
    (bd : BounceData) (db : DB) :
    (processBounce f now mailboxId userId msg bd db).mailboxes = db.mailboxes ∧
    (processBounce f now mailboxId userId msg bd db).emails = db.emails ∧
    (processBounce f now mailboxId userId msg bd db).threads = db.threads := by
  unfold processBounce
  repeat' split
  all_goals
    first
    | exact ⟨rfl, rfl, rfl⟩
    | (refine ⟨?_, ?_, ?_⟩ <;>
        simp only [insertEvent] <;> split <;> rfl)

theorem processMessage_mailboxes {f : Faults} {now : Nat} {mb : Mailbox} {msg : Msg}
    {db db' : DB} (h : processMessage f now mb msg db = .ok db') :
    db'.mailboxes = db.mailboxes := by
  unfold processMessage at h
  split at h
  · injection h with h1
    subst h1
    rfl
  · simp only [] at h
    split at h
    · exact Except.noConfusion h
    · rename_i threadId db1 hthread
      split at h
      · exact Except.noConfusion h
      · split at h
        · split at h
          · injection h with h1
            subst h1
            rw [(processBounce_pres f now mb.id mb.user_id msg _ _).1,
                (updateThreadStats_pres f _ _).1]
            exact (findOrCreateThread_pres hthread).1
          · injection h with h1
            subst h1
            rw [(updateThreadStats_pres f _ _).1]
            exact (findOrCreateThread_pres hthread).1
        · injection h with h1
          subst h1
          rw [(updateThreadStats_pres f _ _).1]
          exact (findOrCreateThread_pres hthread).1

end ProcessorLemmas

section ZeroMessageClaims

/-- A fault configuration in which every store/IMAP operation succeeds. -/
def noFaults : Faults :=
  { cycleFails := false, cycleError := [], insertEmail := fun _ => false,
    insertThread := false, updateThread := false, rpcIncrement := false,
    directUpdate := false, insertBounce := false, insertEvent := false }

/-- A one-mailbox store whose ACTIVE mailbox has never been synced
(`last_synced_at = none`). -/
def c8db : DB :=
  { mailboxes := [{ id := 1, user_id := 7,
                    imap_host := String.toList "imap.example.com",
                    last_synced_uid := 41, last_synced_at := none,
                    status := MStatus.ACTIVE, last_error := none }],
    emails := [], threads := [], bounces := [], bounceEvents := [],
    nextEmailId := 1, nextThreadId := 1, nextBounceId := 1 }

/-- C8 counterexample to the claim as stated: a cycle at time 777 that
fetches zero messages leaves the store completely unchanged, so the
mailbox's `last_synced_at` is still `none` — it is NOT updated to the
cycle time as the claim (and spec step 5) asserts.  The code's
zero-message branch is `console.log(...); return;` with no store write. -/
theorem claim_C8_counterexample :
    processMailbox noFaults 777 1 [] c8db = c8db ∧
    (processMailbox noFaults 777 1 [] c8db).mailboxes.map
      Mailbox.last_synced_at = [none] ∧ (none : Option Nat) ≠ some 777 :=
  ⟨rfl, rfl, by decide⟩

/-- C8 (amended): in a cycle whose fetch succeeds (no thrown
connect/decrypt/fetch error) and returns zero messages, the coordinator
returns immediately and the store is entirely unchanged: `last_synced_uid`
is unchanged as claimed, but — contrary to the claim — `last_synced_at` is
NOT updated either. -/
theorem claim_C8 (f : Faults) (now mailboxId : Nat) (db : DB)
    (hcf : f.cycleFails = false) :
    processMailbox f now mailboxId [] db = db := by
  unfold processMailbox
  split
  · rfl
  · rw [if_neg (by simp [hcf])]
    rfl

/-- C8 witness: the amended theorem applied to the concrete store. -/
theorem claim_C8_witness :
    noFaults.cycleFails = false ∧ processMailbox noFaults 777 1 [] c8db = c8db :=
  ⟨rfl, claim_C8 noFaults 777 1 c8db rfl⟩

end ZeroMessageClaims

section DedupClaims

/-- If the dedup guard did not fire (no existing `(mailbox_id, uid)` row)
and `processMessage` succeeded, the resulting store contains an email row
with that `(mailbox_id, uid)` key. -/
theorem processMessage_inserts {f : Faults} {now : Nat} {mb : Mailbox}
    {msg : Msg} {db db' : DB}
    (hg : (db.emails.find? fun e =>
        decide (e.mailbox_id = mb.id) && decide (e.uid = msg.uid)).isSome = false)
    (h : processMessage f now mb msg db = .ok db') :
    ∃ e ∈ db'.emails, e.mailbox_id = mb.id ∧ e.uid = msg.uid := by
  unfold processMessage at h
  split at h
  · rename_i hgt
    rw [hg] at hgt
    exact absurd hgt (by simp)
  · simp only [] at h
    split at h
    · exact Except.noConfusion h
    · rename_i threadId db1 hthread
      split at h
      · exact Except.noConfusion h
      · split at h
        · split at h
          · injection h with h1
            subst h1
            rw [(processBounce_pres f now mb.id mb.user_id msg _ _).2.1,
                (updateThreadStats_pres f _ _).2.1]
            exact ⟨_, List.mem_append_right _ (List.mem_singleton_self _), rfl, rfl⟩
          · injection h with h1
            subst h1
            rw [(updateThreadStats_pres f _ _).2.1]
            exact ⟨_, List.mem_append_right _ (List.mem_singleton_self _), rfl, rfl⟩
        · injection h with h1
          subst h1
          rw [(updateThreadStats_pres f _ _).2.1]
          exact ⟨_, List.mem_append_right _ (List.mem_singleton_self _), rfl, rfl⟩

/-- C2: the dedup guard makes ingest idempotent.  (1) If an email row with
the message's `(mailbox_id, uid)` already exists, `processMessage` returns
the store unchanged (no insert, no thread update, no bounce write, no
event).  (2) Hence whenever a run of `processMessage` succeeds, re-running
the same message against the resulting store — under ANY fault
configuration and time — returns that store unchanged: row counts are
stable under re-runs. -/
theorem claim_C2 (f f2 : Faults) (now now2 : Nat) (mb : Mailbox) (msg : Msg)
    (db db' : DB) :
    ((db.emails.find? fun e =>
        decide (e.mailbox_id = mb.id) && decide (e.uid = msg.uid)).isSome = true →
      processMessage f now mb msg db = .ok db) ∧
    (processMessage f now mb msg db = .ok db' →
      processMessage f2 now2 mb msg db' = .ok db') := by
  constructor
  · intro hg
    unfold processMessage
    rw [if_pos hg]
  · intro h
    by_cases hg : (db.emails.find? fun e =>
        decide (e.mailbox_id = mb.id) && decide (e.uid = msg.uid)).isSome = true
    · unfold processMessage at h
      rw [if_pos hg] at h
      injection h with h1
      subst h1
      unfold processMessage
      rw [if_pos hg]
    · obtain ⟨e, he, h1, h2⟩ :=
        processMessage_inserts (Bool.not_eq_true _ ▸ hg) h
      have hg' : (db'.emails.find? fun e =>
          decide (e.mailbox_id = mb.id) && decide (e.uid = msg.uid)).isSome = true := by
        rw [List.find?_isSome]
        exact ⟨e, he, by simp [h1, h2]⟩
      unfold processMessage
      rw [if_pos hg']

/-- A store already holding the email row for `(mailbox 1, uid 5)`. -/
def c2row : EmailRow :=
  { id := 1, user_id := 7, mailbox_id := 1, uid := 5,
    message_id := String.toList "m5@example.com",
    subject := String.toList "hello", from_address := String.toList "a@b.co",
    from_name := [], to_addresses := [], cc_addresses := [], bcc_addresses := [],
    category := Category.HUMAN, category_confidence := 0, thread_id := 1,
    in_reply_to := none, reference_ids := [], body_preview := [],
    has_attachments := false, is_read := false, is_starred := false,
    is_archived := false, received_at := 100, sent_at := 100, size_bytes := 0,
    headers := [] }

def c2db : DB :=
  { mailboxes := [], emails := [c2row], threads := [], bounces := [],
    bounceEvents := [], nextEmailId := 2, nextThreadId := 2, nextBounceId := 1 }

def c2mb : Mailbox :=
  { id := 1, user_id := 7, imap_host := String.toList "imap.example.com",
    last_synced_uid := 4, last_synced_at := none, status := MStatus.ACTIVE,
    last_error := none }

def c2msg : Msg :=
  { uid := 5, messageId := some (String.toList "m5@example.com"),
    subject := some (String.toList "hello"),
    from_ := some (String.toList "a@b.co"), toF := JsVal.undef, cc := JsVal.undef,
    bcc := JsVal.undef, body := some (String.toList "hi"), headers := [],
    inReplyTo := none, references := JsVal.undef, receivedAt := some 100,
    sentAt := none, attachments := none, size := none }

/-- C2 witness: re-processing uid 5 against a store that already holds its
row returns the store unchanged. -/
theorem claim_C2_witness :
    (c2db.emails.find? fun e =>
        decide (e.mailbox_id = c2mb.id) && decide (e.uid = c2msg.uid)).isSome = true ∧
    processMessage noFaults 200 c2mb c2msg c2db = .ok c2db :=
  ⟨by decide, (claim_C2 noFaults noFaults 200 200 c2mb c2msg c2db c2db).1 (by decide)⟩

end DedupClaims

section CheckpointClaims

/-- The per-message loop of `processMailbox` tracks `maxUid` independently
of whether `processMessage` succeeded: its first component is the fold of
`max` over ALL fetched UIDs (the `if (message.uid > maxUid)` update runs
BEFORE the per-message `try`). -/
theorem procLoop_fst (f : Faults) (now : Nat) (mailbox : Mailbox)
    (msgs : List Msg) : ∀ (u : Nat) (d : DB),
    (msgs.foldl
      (fun (acc : Nat × DB) message =>
        let maxUid := if acc.1 < message.uid then message.uid else acc.1
        match processMessage f now mailbox message acc.2 with
        | .ok db2 => (maxUid, db2)
        | .error _ => (maxUid, acc.2)) (u, d)).1
    = msgs.foldl (fun a m => if a < m.uid then m.uid else a) u := by
  induction msgs with
  | nil => intro u d; rfl
  | cons m rest ih =>
    intro u d
    rw [List.foldl_cons, List.foldl_cons]
    cases hpm : processMessage f now mailbox m d with
    | ok db2 =>
      simp only []
      exact ih _ db2
    | error e =>
      simp only []
      exact ih _ d

/-- The per-message loop never touches the `mailboxes` table (successful
messages only change emails/threads/bounces; failed ones change nothing). -/
theorem procLoop_mailboxes (f : Faults) (now : Nat) (mailbox : Mailbox)
    (msgs : List Msg) : ∀ (u : Nat) (d : DB),
    ((msgs.foldl
      (fun (acc : Nat × DB) message =>
        let maxUid := if acc.1 < message.uid then message.uid else acc.1
        match processMessage f now mailbox message acc.2 with
        | .ok db2 => (maxUid, db2)
        | .error _ => (maxUid, acc.2)) (u, d)).2).mailboxes
    = d.mailboxes := by
  induction msgs with
  | nil => intro u d; rfl
  | cons m rest ih =>
    intro u d
    rw [List.foldl_cons]
    cases hpm : processMessage f now mailbox m d with
    | ok db2 =>
      simp only []
      rw [ih _ db2]
      exact processMessage_mailboxes hpm
    | error e =>
      simp only []
      exact ih _ d

/-- C1 (amended): in a non-empty cycle over an ACTIVE mailbox whose fetch
did not throw, the checkpoint written back is the fold of `max` over ALL
fetched UIDs starting from the stored `last_synced_uid` — INDEPENDENT of
which messages failed to persist.  `maxUid` is advanced before the
per-message `try`, so a mid-batch store failure does NOT hold the
checkpoint at the last successful UID: failed UIDs are skipped forever. -/
theorem claim_C1 (f : Faults) (now mailboxId : Nat) (fetched : List Msg)
    (db : DB) (mailbox : Mailbox)
    (hfind : db.mailboxes.find? (fun m =>
        decide (m.id = mailboxId) && decide (m.status = MStatus.ACTIVE))
      = some mailbox)
    (hcf : f.cycleFails = false)
    (hne : fetched.isEmpty = false) :
    (processMailbox f now mailboxId fetched db).mailboxes
      = db.mailboxes.map fun m =>
          if m.id = mailboxId then
            { m with
              last_synced_uid := fetched.foldl
                (fun a msg => if a < msg.uid then msg.uid else a)
                mailbox.last_synced_uid,
              last_synced_at := some now, status := MStatus.ACTIVE,
              last_error := none }
          else m := by
  unfold processMailbox
  rw [hfind]
  simp only []
  rw [if_neg (by simp [hcf]), if_neg (by simp [hne])]
  unfold updateMailboxRec
  simp only []
  rw [procLoop_fst, procLoop_mailboxes]

/-- The mailbox of the C1 scenario: ACTIVE, checkpoint at UID 9. -/
def c1mb : Mailbox :=
  { id := 1, user_id := 7, imap_host := String.toList "imap.example.com",
    last_synced_uid := 9, last_synced_at := none, status := MStatus.ACTIVE,
    last_error := none }

def c1db : DB :=
  { mailboxes := [c1mb], emails := [], threads := [], bounces := [],
    bounceEvents := [], nextEmailId := 1, nextThreadId := 1, nextBounceId := 1 }

/-- A minimal fetched message with the given UID. -/
def c1msg (uid : Nat) : Msg :=
  { uid := uid, messageId := some ('m' :: natToDec uid ++ String.toList "@x.co"),
    subject := some (String.toList "hello"),
    from_ := some (String.toList "carol@example.com"),
    toF := JsVal.str (String.toList "bob@example.com"), cc := JsVal.undef,
    bcc := JsVal.undef, body := some (String.toList "hi there"), headers := [],
    inReplyTo := none, references := JsVal.undef, receivedAt := some 1000,
    sentAt := none, attachments := none, size := none }

/-- The C1 batch: UIDs 10, 11, 12. -/
def c1msgs : List Msg := [c1msg 10, c1msg 11, c1msg 12]

/-- Faults for the C1 scenario: persisting UID 11 fails, everything else
succeeds. -/
def c1faults : Faults :=
  { cycleFails := false, cycleError := [],
    insertEmail := fun uid => decide (uid = 11),
    insertThread := false, updateThread := false, rpcIncrement := false,
    directUpdate := false, insertBounce := false, insertEvent := false }

/-- C1 counterexample to the claim as stated: batch UIDs 10, 11, 12 with a
store failure on UID 11 — after the cycle `last_synced_uid` is 12 (the
largest UID SEEN), not 10 (the largest UID successfully persisted before
the failure), because `maxUid` is advanced before the per-message `try`
and the catch only logs. -/
theorem claim_C1_counterexample :
    (processMailbox c1faults 2000 1 c1msgs c1db).mailboxes.map
      Mailbox.last_synced_uid = [12] ∧ (12 : Nat) ≠ 10 :=
  ⟨rfl, by decide⟩

/-- C1 witness: the amended theorem applied to the concrete scenario. -/
theorem claim_C1_witness :
    c1db.mailboxes.find? (fun m =>
        decide (m.id = 1) && decide (m.status = MStatus.ACTIVE)) = some c1mb ∧
    c1faults.cycleFails = false ∧
    c1msgs.isEmpty = false ∧
    (processMailbox c1faults 2000 1 c1msgs c1db).mailboxes
      = c1db.mailboxes.map (fun m =>
          if m.id = 1 then
            { m with
              last_synced_uid := c1msgs.foldl
                (fun a msg => if a < msg.uid then msg.uid else a)
                c1mb.last_synced_uid,
              last_synced_at := some 2000, status := MStatus.ACTIVE,
              last_error := none }
          else m) :=
  ⟨rfl, rfl, rfl, claim_C1 c1faults 2000 1 c1msgs c1db c1mb rfl rfl rfl⟩

end CheckpointClaims

section BounceSwallowClaims

/-- When the aggregate increment, its direct-update fallback, and the
aggregate insert all fail, `processBounce` returns the store unchanged:
every failure is swallowed (the catch only logs) and, because the throw
aborts the rest of the `try`, no `BounceEvent` is appended either. -/
theorem processBounce_id (f : Faults) (now mailboxId userId : Nat) (msg : Msg)
    (bd : BounceData) (db : DB) (h1 : f.rpcIncrement = true)
    (h2 : f.directUpdate = true) (h3 : f.insertBounce = true) :
    processBounce f now mailboxId userId msg bd db = db := by
  unfold processBounce
  split
  · rfl
  · split
    · rw [if_pos h1, if_pos h2]
    · rw [if_pos h3]

/-- C10: for a BOUNCE-classified message with a valid failed recipient,
failures of ALL bounce-side store operations (aggregate increment, direct
update fallback, aggregate insert — and hence the never-reached event
insert) are swallowed inside `processBounce` and never propagated:
`processMessage` still completes successfully, the Email row is persisted
(email count grows by one), and neither a bounce aggregate nor a
BounceEvent is written, so a BOUNCE Email row exists with no corresponding
BounceEvent and the bounce write is never retried. -/
theorem claim_C10 (f : Faults) (now : Nat) (mb : Mailbox) (msg : Msg) (db : DB)
    (hdup : (db.emails.find? fun e =>
        decide (e.mailbox_id = mb.id) && decide (e.uid = msg.uid)).isSome = false)
    (hthr : f.insertThread = false)
    (hins : f.insertEmail msg.uid = false)
    (hrpc : f.rpcIncrement = true)
    (hdir : f.directUpdate = true)
    (hib : f.insertBounce = true)
    (hcat : (classify (msgToCMsg msg (normalizeEmailArray msg.toF))).category
      = Category.BOUNCE)
    (hrec : (parseBounce msg.body msg.subject).failedRecipient.isSome = true) :
    ∃ db', processMessage f now mb msg db = .ok db' ∧
      db'.emails.length = db.emails.length + 1 ∧
      db'.bounces = db.bounces ∧
      db'.bounceEvents = db.bounceEvents := by
  obtain ⟨tid, db1, hthread⟩ := findOrCreateThread_ok now mb.id mb.user_id
    ⟨msg.subject, msg.from_, normalizeEmailArray msg.toF, normalizeEmailArray msg.cc,
     msg.inReplyTo, normalizeEmailArray msg.references, msg.receivedAt.getD now⟩ db hthr
  obtain ⟨r, hr⟩ := Option.isSome_iff_exists.mp hrec
  unfold processMessage
  simp only [hdup, Bool.false_eq_true, if_false]
  rw [hthread]
  simp only [hins, Bool.false_eq_true, if_false]
  rw [if_pos hcat]
  rw [hr]
  simp only []
  refine ⟨_, rfl, ?_, ?_, ?_⟩
  · rw [processBounce_id f now mb.id mb.user_id msg _ _ hrpc hdir hib,
        (updateThreadStats_pres f _ _).2.1]
    simp only [List.length_append, List.length_cons, List.length_nil]
    rw [(findOrCreateThread_pres hthread).2.1]
  · rw [processBounce_id f now mb.id mb.user_id msg _ _ hrpc hdir hib,
        (updateThreadStats_pres f _ _).2.2.1]
    exact (findOrCreateThread_pres hthread).2.2.1
  · rw [processBounce_id f now mb.id mb.user_id msg _ _ hrpc hdir hib,
        (updateThreadStats_pres f _ _).2.2.2.1]
    exact (findOrCreateThread_pres hthread).2.2.2.1

/-- The mailbox of the C10 scenario. -/
def c10mb : Mailbox :=
  { id := 2, user_id := 7, imap_host := String.toList "imap.example.com",
    last_synced_uid := 0, last_synced_at := none, status := MStatus.ACTIVE,
    last_error := none }

/-- An empty store. -/
def c10db : DB :=
  { mailboxes := [c10mb], emails := [], threads := [], bounces := [],
    bounceEvents := [], nextEmailId := 1, nextThreadId := 1, nextBounceId := 1 }

/-- A bounce message (MAILER-DAEMON sender, failed recipient in angle
brackets, SMTP 550 in the body). -/
def c10msg : Msg :=
  { uid := 3, messageId := some (String.toList "b3@x.co"),
    subject := some (String.toList "Mail delivery failed"),
    from_ := some (String.toList "mailer-daemon@example.com"),
    toF := JsVal.undef, cc := JsVal.undef, bcc := JsVal.undef,
    body := some (String.toList "x <alice@example.com> 550 User unknown"),
    headers := [], inReplyTo := none, references := JsVal.undef,
    receivedAt := some 1000, sentAt := none, attachments := none, size := none }

/-- Faults for the C10 scenario: every bounce-side store operation fails,
everything else succeeds. -/
def f10 : Faults :=
  { cycleFails := false, cycleError := [],
    insertEmail := fun _ => false, insertThread := false, updateThread := false,
    rpcIncrement := true, directUpdate := true, insertBounce := true,
    insertEvent := true }

/-- C10 witness: the concrete bounce message under all-failing bounce-side
store operations is still persisted with no bounce aggregate or event. -/
theorem claim_C10_witness :
    (c10db.emails.find? fun e =>
        decide (e.mailbox_id = c10mb.id) && decide (e.uid = c10msg.uid)).isSome = false ∧
    f10.insertThread = false ∧ f10.insertEmail c10msg.uid = false ∧
    f10.rpcIncrement = true ∧ f10.directUpdate = true ∧ f10.insertBounce = true ∧
    (classify (msgToCMsg c10msg (normalizeEmailArray c10msg.toF))).category
      = Category.BOUNCE ∧
    (parseBounce c10msg.body c10msg.subject).failedRecipient.isSome = true ∧
    (∃ db', processMessage f10 500 c10mb c10msg c10db = .ok db' ∧
      db'.emails.length = c10db.emails.length + 1 ∧
      db'.bounces = c10db.bounces ∧
      db'.bounceEvents = c10db.bounceEvents) :=
  ⟨rfl, rfl, rfl, rfl, rfl, rfl, rfl, rfl,
   claim_C10 f10 500 c10mb c10msg c10db rfl rfl rfl rfl rfl rfl rfl rfl⟩

end BounceSwallowClaims

end MailSuite
